import Mathlib

/-!
Verification of the tailor streaming-composition middleware, shallowly embedded
from the two source files `lib/request-handler.js` (the request handler) and
`src/pipe.js` (the browser-side pipe runtime).

The request handler is event-driven JavaScript: callbacks are registered on the
primary fragment's `response`/`fallback`/`error` events, on the
template-processor stream (`fragment:found`, `finish`, `error`) and on the
content-length meter.  We embed it as a deterministic state machine: `HState`
carries the handler's mutable per-request state (`shouldWriteHead`,
`responseHeaders`, which once-listeners have already fired, whether the
processor output has been piped, the meter's byte counter, ...), and `hstep`
consumes one external event and returns the successor state together with the
list of observable actions the handler performs (`writeHead`, piping, emitting
`end`/`error`/`response`, ending the response).  `processRequest` first
resolves the context and template promises and then folds a whole event trace.

The pipe runtime is embedded the same way (`PState`/`pstep`): events are the
server-emitted `Pipe.start(...)` calls, the (possibly asynchronous) completion
of a fragment's initialisation (the `handlerFn` cleanup in `doInit`, shared
with the non-function-initializer path of `end`), and document readyState
changes; actions are the hook invocations.

Pure helpers (`getCrossOriginHeader`, `getAssetsToPreload`,
`nextIndexGenerator`) are embedded as pure functions.  The external npm library
`http-link-header` is not part of the repository; `getAssetsToPreload` is
therefore taken to receive the already-parsed list of link references
(uri/rel pairs), which is exactly what `LinkHeader.parse` hands it.
-/

/-! ## Header maps (plain JS objects of string keys and string values) -/

abbrev Headers := List (String × String)

/-- Reading a property of a JS header object. -/
def hget : Headers → String → Option String
  | [], _ => none
  | p :: t, k => if p.1 = k then some p.2 else hget t k

/-- Writing a property of a JS header object (keys are unique; insertion order
is kept, a fresh key goes to the end). -/
def hset : Headers → String → String → Headers
  | [], k, v => [(k, v)]
  | p :: t, k, v => if p.1 = k then (k, v) :: t else p :: hset t k v

/-- `Object.assign(dst, src)`: every key of `src` is written into `dst`. -/
def hassign (dst src : Headers) : Headers :=
  src.foldl (fun acc p => hset acc p.1 p.2) dst

def listPrefixOf : List Char → List Char → Bool
  | [], _ => true
  | _ :: _, [] => false
  | a :: as, b :: bs => a == b && listPrefixOf as bs

def listInfixOf (pat : List Char) : List Char → Bool
  | [] => listPrefixOf pat []
  | b :: bs => listPrefixOf pat (b :: bs) || listInfixOf pat bs

/-- JS `s.indexOf(pat) >= 0`: `pat` occurs inside `s`. -/
def containsSub (s pat : String) : Bool :=
  listInfixOf pat.toList s.toList

/-- The suffix of `l` that follows the first occurrence of `pat`, if any. -/
def afterSub (pat : List Char) : List Char → Option (List Char)
  | [] => if listPrefixOf pat [] then some [] else none
  | c :: tl =>
      if listPrefixOf pat (c :: tl) then some ((c :: tl).drop pat.length)
      else afterSub pat tl

/-! ## getCrossOriginHeader / getAssetsToPreload (request-handler.js lines 18-51) -/

/-- `getCrossOriginHeader(fragmentUrl, host)`: returns `'crossorigin'` when the
request's `host` header is truthy (present and non-empty) and the string
`"://" + host` does not occur inside `fragmentUrl`; otherwise `''`. -/
def getCrossOriginHeader (fragmentUrl : String) (host : Option String) : String :=
  match host with
  | some h => if h != "" && !(containsSub fragmentUrl ("://" ++ h)) then "crossorigin" else ""
  | none => ""

/-- One reference of a parsed `link` header, as produced by `LinkHeader.parse`. -/
structure LinkRef where
  uri : String
  rel : String
deriving DecidableEq

/-- `getAssetsToPreload({link}, {headers})`, with the `LinkHeader.parse` call on
the `link` header modelled as receiving the parsed reference list directly.
The JS guard is `if (!scriptRefs[0] && !styleRefs[0]) return '';` — falsiness
of the first element of each uri list. -/
def getAssetsToPreload (refs : List LinkRef) (host : Option String) : String :=
  let scriptRefs := (refs.filter (fun r => r.rel = "fragment-script")).map (fun r => r.uri)
  let styleRefs := (refs.filter (fun r => r.rel = "stylesheet")).map (fun r => r.uri)
  if scriptRefs.headD "" == "" && styleRefs.headD "" == "" then ""
  else
    let styleEntries := styleRefs.map
      (fun uri => "<" ++ uri ++ ">; rel=\"preload\"; as=\"style\"; nopush")
    let scriptEntries := scriptRefs.map
      (fun uri => "<" ++ uri ++ ">; rel=\"preload\"; as=\"script\"; nopush; "
        ++ getCrossOriginHeader uri host)
    String.intercalate "," (styleEntries ++ scriptEntries)

/-- Modelled from the spec: the host component of an absolute URI (the text
between the first `"://"` and the next `/`), used to state what "the script
host differs from the request host" means in claim C6. -/
def uriHost (uri : String) : String :=
  match afterSub ("://".toList) uri.toList with
  | some rest => String.mk (rest.takeWhile (fun c => c != '/'))
  | none => ""

/-- Claim C6 as stated: style entries `<uri>; rel="preload"; as="style"; nopush`,
script entries `<uri>; rel="preload"; as="script"; nopush` with `; crossorigin`
appended exactly when the script host differs from the request host; all joined
with a comma, empty when no such entries exist. -/
def preloadClaimC6 (refs : List LinkRef) (host : Option String) : String :=
  let entries :=
    (refs.filter (fun r => r.rel = "stylesheet")).map
      (fun r => "<" ++ r.uri ++ ">; rel=\"preload\"; as=\"style\"; nopush")
    ++ (refs.filter (fun r => r.rel = "fragment-script")).map
      (fun r => "<" ++ r.uri ++ ">; rel=\"preload\"; as=\"script\"; nopush"
        ++ (if (match host with | some h => uriHost r.uri != h | none => false) then
              "; crossorigin" else ""))
  if entries = [] then "" else String.intercalate "," entries

/-- The amended claim C6: script entries always end in `"; nopush; "` followed
by `crossorigin` exactly when the request host is present, non-empty and does
not occur as `"://" + host` inside the script uri. -/
def preloadAmendedC6 (refs : List LinkRef) (host : Option String) : String :=
  let entries :=
    (refs.filter (fun r => r.rel = "stylesheet")).map
      (fun r => "<" ++ r.uri ++ ">; rel=\"preload\"; as=\"style\"; nopush")
    ++ (refs.filter (fun r => r.rel = "fragment-script")).map
      (fun r => "<" ++ r.uri ++ ">; rel=\"preload\"; as=\"script\"; nopush; "
        ++ (if (match host with
                | some h => h != "" && !(containsSub r.uri ("://" ++ h))
                | none => false) then "crossorigin" else ""))
  if entries = [] then "" else String.intercalate "," entries

/-! ## nextIndexGenerator (request-handler.js lines 53-61) -/

/-- `nextIndexGenerator(initialIndex, step)`: the closure's captured mutable
`index` starts at `initialIndex`; a call returns the past index and advances
the captured state by `step`.  The pair is (initial state, one-call
transition returning (past index, new state)). -/
def nextIndexGenerator (initialIndex step : Nat) : Nat × (Nat → Nat × Nat) :=
  (initialIndex, fun index => (index, index + step))

/-- The captured `index` after `k` calls of the generator. -/
def genStateAfter (initialIndex step : Nat) : Nat → Nat
  | 0 => (nextIndexGenerator initialIndex step).1
  | k + 1 => ((nextIndexGenerator initialIndex step).2 (genStateAfter initialIndex step k)).2

/-- The value returned by the `k`-th call (`k = 0, 1, 2, ...`) of the generator. -/
def genReturn (initialIndex step k : Nat) : Nat :=
  ((nextIndexGenerator initialIndex step).2 (genStateAfter initialIndex step k)).1

/-! ## The request-handler state machine (request-handler.js lines 70-221) -/

/-- The fragment attributes the request handler reads
(`const { primary } = fragment.attributes`). -/
structure FragAttrs where
  primary : Bool
deriving DecidableEq

/-- Upstream response headers of the primary fragment, as the handler reads
them: `headers.location` (absent, or a string whose truthiness is tested) and
`headers.link` (`none` models an absent — or empty, hence falsy — `link`
header; `some refs` a non-empty one together with its `LinkHeader.parse`). -/
structure UHeaders where
  location : Option String
  link : Option (List LinkRef)
deriving DecidableEq

/-- A JS error as the handler inspects it: `err.code` and `err.presentable`
(`some` exactly when `typeof err.presentable === 'string'`). -/
structure JsError where
  code : Option String
  presentable : Option String
deriving DecidableEq

/-- The error code exported by `lib/fetch-template.js`. -/
def TEMPLATE_NOT_FOUND : String := "TEMPLATE_NOT_FOUND"

/-- Per-request configuration read from `options` and from the request:
`filterResponseHeaders` is `some` exactly when
`typeof filterResponseHeaders === 'function'`; `host` is the request's `host`
header (`request.headers.host`). -/
structure Cfg where
  filterResponseHeaders : Option (FragAttrs → UHeaders → Headers) := none
  maxAssetLinks : Nat := 1
  host : Option String := none

/-- The baseline `responseHeaders` object (request-handler.js lines 90-95). -/
def responseHeadersInit : Headers :=
  [("Cache-Control", "no-cache, no-store, must-revalidate"),
   ("Pragma", "no-cache"),
   ("Content-Type", "text/html")]

/-- The handler's per-request mutable state.  Besides the source's
`shouldWriteHead`, `responseHeaders` and `contentLength` counter it records
which once-listeners have already fired (`respFired`/`fbFired`/`errFired` for
the tracked primary fragment, `finFired` for the processor's `finish`,
`serrFired` for its `error`), which fragment the primary once-listeners are
attached to (`primaryTracked`), whether `resultStream` has been piped through
the meter into the response, whether the meter has ended (its completion
callback fired), whether `response.end` was called directly, the response's
`statusCode` (Node's default is 200), and the context object. -/
structure HState where
  shouldWriteHead : Bool
  responseHeaders : Headers
  primaryTracked : Option Nat
  respFired : Bool
  fbFired : Bool
  errFired : Bool
  finFired : Bool
  serrFired : Bool
  errWroteHead : Bool
  finWroteHead : Bool
  piped : Bool
  meterCount : Nat
  meterEnded : Bool
  respEnded : Bool
  statusCode : Nat
  ctx : Headers

def initHState : HState :=
  { shouldWriteHead := true
    responseHeaders := responseHeadersInit
    primaryTracked := none
    respFired := false
    fbFired := false
    errFired := false
    finFired := false
    serrFired := false
    errWroteHead := false
    finWroteHead := false
    piped := false
    meterCount := 0
    meterEnded := false
    respEnded := false
    statusCode := 200
    ctx := [] }

/-- Observable actions of the handler. -/
inductive HAction where
  | emitStart
  | emitCtxError
  | emitError
  | emitResponse (status : Nat) (headers : Headers)
  | emitEnd (count : Nat)
  | writeHead (status : Nat) (headers : Headers)
  | pipeThrough
  | respEnd (body : Option String)
  | chunk (n : Nat)
deriving DecidableEq

/-- External events delivered to the handler's callbacks: a fragment being
found (with its `primary` attribute), the tracked fragment's
`response`/`fallback`/`error` events, the processor stream's `finish` and
`error`, a body chunk of `n` bytes flowing from the processor through the
meter into the response, and the meter reaching its end after being piped. -/
inductive HEv where
  | found (primary : Bool) (fid : Nat)
  | resp (fid : Nat) (status : Nat) (headers : UHeaders)
  | fallback (fid : Nat)
  | ferror (fid : Nat)
  | finish
  | serror (e : JsError)
  | chunk (n : Nat)
  | meterFin
deriving DecidableEq

/-- `handleError` (request-handler.js lines 103-122): emit `error`; if
`shouldWriteHead`, clear it, write 404 (for `TEMPLATE_NOT_FOUND`) or 500 with
the current `responseHeaders` and end the response with the `presentable`
payload if it is a string; otherwise just end the content-length meter (which,
if not already ended, fires its completion callback — the handler's `end`
event — with the bytes counted so far). -/
def handleError (e : JsError) (s : HState) : HState × List HAction :=
  if s.shouldWriteHead then
    let statusCode := if e.code = some TEMPLATE_NOT_FOUND then 404 else 500
    ({ s with shouldWriteHead := false, errWroteHead := true,
              respEnded := true, statusCode := statusCode },
     [.emitError, .writeHead statusCode s.responseHeaders, .respEnd e.presentable])
  else if s.meterEnded then (s, [.emitError])
  else ({ s with meterEnded := true }, [.emitError, .emitEnd s.meterCount])

/-- The body of `fragment.once('response', ...)` registered by
`handlePrimaryFragment` (request-handler.js lines 131-155): merge the filtered
upstream headers, propagate a truthy `location`, compute preload assets from a
truthy `link`, emit `response`, write the head with the upstream status and
pipe the processor output through the meter into the response. -/
def primaryResponse (cfg : Cfg) (st : Nat) (h : UHeaders) (s : HState) :
    HState × List HAction :=
  let rh0 := match cfg.filterResponseHeaders with
    | some f => hassign s.responseHeaders (f { primary := true } h)
    | none => s.responseHeaders
  let rh1 := match h.location with
    | some l => if l != "" then hset rh0 "location" l else rh0
    | none => rh0
  let preloadAssets := match h.link with
    | some refs => getAssetsToPreload refs cfg.host
    | none => ""
  let rh2 := if preloadAssets != "" then hset rh1 "link" preloadAssets else rh1
  ({ s with respFired := true, responseHeaders := rh2, piped := true, statusCode := st },
   [.emitResponse st rh2, .writeHead st rh2, .pipeThrough])

/-- One step of the handler: the effect of one external event on the
registered callbacks.  `found` runs the `fragment:found` listener (lines
184-199): a primary fragment found while `shouldWriteHead` is still set clears
the latch and becomes the tracked fragment whose
`response`/`fallback`/`error` once-listeners are registered (lines 124-168);
later primaries are ignored.  `finish` runs the once-`finish` listener (lines
201-209).  `serror` runs the once-`error` listener, i.e. `handleError`.
Chunks flow only while piped and the meter not ended. -/
def hstep (cfg : Cfg) (s : HState) (e : HEv) : HState × List HAction :=
  match e with
  | .found primary fid =>
      if primary && s.shouldWriteHead then
        ({ s with shouldWriteHead := false, primaryTracked := some fid }, [])
      else (s, [])
  | .resp fid st h =>
      if s.primaryTracked == some fid && !s.respFired then primaryResponse cfg st h s
      else (s, [])
  | .fallback fid =>
      if s.primaryTracked == some fid && !s.fbFired then
        ({ s with fbFired := true, piped := true, statusCode := 500 },
         [.emitError, .writeHead 500 s.responseHeaders, .pipeThrough])
      else (s, [])
  | .ferror fid =>
      if s.primaryTracked == some fid && !s.errFired then
        ({ s with errFired := true, respEnded := true, statusCode := 500 },
         [.emitError, .writeHead 500 s.responseHeaders, .respEnd none])
      else (s, [])
  | .finish =>
      if s.finFired then (s, [])
      else
        let statusCode := if s.statusCode = 0 then 200 else s.statusCode
        if s.shouldWriteHead then
          ({ s with finFired := true, shouldWriteHead := false, finWroteHead := true,
                    piped := true, statusCode := statusCode },
           [.emitResponse statusCode s.responseHeaders,
            .writeHead statusCode s.responseHeaders, .pipeThrough])
        else ({ s with finFired := true }, [])
  | .serror e =>
      if s.serrFired then (s, [])
      else handleError e { s with serrFired := true }
  | .chunk n =>
      if s.piped && !s.meterEnded then
        ({ s with meterCount := s.meterCount + n }, [.chunk n])
      else (s, [])
  | .meterFin =>
      if s.piped && !s.meterEnded then
        ({ s with meterEnded := true }, [.emitEnd s.meterCount])
      else (s, [])

def runFrom (cfg : Cfg) (start : HState × List HAction) (evs : List HEv) :
    HState × List HAction :=
  evs.foldl (fun acc e =>
    let out := hstep cfg acc.1 e
    (out.1, acc.2 ++ out.2)) start

def runMain (cfg : Cfg) (evs : List HEv) : HState × List HAction :=
  runFrom cfg (initHState, []) evs

/-- `processRequest(options, request, response)` (request-handler.js lines
70-221): emit `start`; resolve the context promise (a failure emits
`context:error` and substitutes the empty object) and the template promise; a
template failure is caught and routed to `handleError` (the processor stream
is then never created, so no further events occur); otherwise the
callback-driven processing of the event trace runs. -/
def processRequest (cfg : Cfg) (ctxRes : Except JsError Headers)
    (tmplRes : Except JsError Unit) (evs : List HEv) : HState × List HAction :=
  let ctxActs : List HAction := match ctxRes with
    | .error _ => [.emitCtxError]
    | .ok _ => []
  let ctx : Headers := match ctxRes with
    | .error _ => []
    | .ok c => c
  match tmplRes with
  | .error e =>
      let out := handleError e { initHState with ctx := ctx }
      (out.1, [HAction.emitStart] ++ ctxActs ++ out.2)
  | .ok _ =>
      let out := runFrom cfg ({ initHState with ctx := ctx }, []) evs
      (out.1, [HAction.emitStart] ++ ctxActs ++ out.2)

/-! ## Observables of the handler's action log -/

def isWriteHead : HAction → Bool
  | .writeHead _ _ => true
  | _ => false

def isChunkA : HAction → Bool
  | .chunk _ => true
  | _ => false

/-- Number of `response.writeHead` calls in a log. -/
def countWH (l : List HAction) : Nat := (l.filter isWriteHead).length

/-- The statuses of the `writeHead` calls, in order. -/
def whStatuses (l : List HAction) : List Nat :=
  l.filterMap (fun a => match a with | .writeHead st _ => some st | _ => none)

/-- The headers of the `writeHead` calls, in order. -/
def whHeadersList (l : List HAction) : List Headers :=
  l.filterMap (fun a => match a with | .writeHead _ h => some h | _ => none)

/-- The payloads of the handler's `end` events, in order. -/
def endPayloads (l : List HAction) : List Nat :=
  l.filterMap (fun a => match a with | .emitEnd n => some n | _ => none)

/-- Total body bytes that flowed through the content-length meter. -/
def chunkSum (l : List HAction) : Nat :=
  (l.map (fun a => match a with | HAction.chunk n => n | _ => 0)).sum

/-- Body bytes written to the response directly by `response.end(body)`
(the `presentable` error body), bypassing the meter. -/
def respEndBodyBytes (l : List HAction) : Nat :=
  (l.map (fun a => match a with | .respEnd (some b) => b.length | _ => 0)).sum

/-- All body bytes written to the response socket. -/
def bodyBytesToSocket (l : List HAction) : Nat :=
  chunkSum l + respEndBodyBytes l

def hbAux : Bool → List HAction → Bool
  | _, [] => true
  | seen, a :: rest =>
      match a with
      | .chunk _ => seen && hbAux seen rest
      | .writeHead _ _ => hbAux true rest
      | _ => hbAux seen rest

/-- Every body chunk in the log is preceded by some `writeHead` call. -/
def headsBeforeChunks (l : List HAction) : Bool := hbAux false l

/-- A completed request: the response was ended, either directly
(`response.end`) or by the piped stream reaching its end. -/
def CompletedState (s : HState) : Prop :=
  s.respEnded = true ∨ (s.piped = true ∧ s.meterEnded = true)

instance (s : HState) : Decidable (CompletedState s) := by
  unfold CompletedState; infer_instance

def isRespOf (fid : Nat) : HEv → Bool
  | .resp f _ _ => f == fid
  | _ => false

def isFallbackOf (fid : Nat) : HEv → Bool
  | .fallback f => f == fid
  | _ => false

def isFerrorOf (fid : Nat) : HEv → Bool
  | .ferror f => f == fid
  | _ => false

/-- No fragment fires more than one of the three head-writing fragment events
(`response`, `fallback`, `error`) in the trace. -/
def atMostOneHeadEvent (evs : List HEv) : Bool :=
  evs.all (fun e =>
    match e with
    | .resp fid _ _ => !(evs.any (isFallbackOf fid) || evs.any (isFerrorOf fid))
    | .fallback fid => !(evs.any (isRespOf fid) || evs.any (isFerrorOf fid))
    | .ferror fid => !(evs.any (isRespOf fid) || evs.any (isFallbackOf fid))
    | _ => true)

/-- The events at which the code's `shouldWriteHead` latch can be cleared: a
primary fragment being found, a stream error (`handleError`), and the
processor's `finish`. -/
def IsLatchClearing : HEv → Bool
  | .found primary _ => primary
  | .serror _ => true
  | .finish => true
  | _ => false

/-- The four head-write events named by claim C2: primary response, primary
fallback, primary error, processor finish. -/
def isHeadWriteEvent : HEv → Bool
  | .resp _ _ _ => true
  | .fallback _ => true
  | .ferror _ => true
  | .finish => true
  | _ => false

/-- All three baseline headers are present with their baseline values. -/
def baselineIn (h : Headers) : Prop :=
  hget h "Cache-Control" = some "no-cache, no-store, must-revalidate" ∧
  hget h "Pragma" = some "no-cache" ∧
  hget h "Content-Type" = some "text/html"

instance (h : Headers) : Decidable (baselineIn h) := by
  unfold baselineIn; infer_instance

/-- The headers written by the tracked primary's `response` listener under the
default configuration (`filterResponseHeaders` not a function): the baseline
headers, a truthy upstream `location` propagated, the preload assets of a
truthy upstream `link`. -/
def primaryHeadersDefault (cfg : Cfg) (h : UHeaders) : Headers :=
  let rh1 := match h.location with
    | some l => if l != "" then hset responseHeadersInit "location" l else responseHeadersInit
    | none => responseHeadersInit
  let preloadAssets := match h.link with
    | some refs => getAssetsToPreload refs cfg.host
    | none => ""
  if preloadAssets != "" then hset rh1 "link" preloadAssets else rh1

/-- A filter function overriding a baseline header, used to exhibit that the
baseline headers are not always present verbatim. -/
def overrideFilter : FragAttrs → UHeaders → Headers :=
  fun _ _ => [("Content-Type", "application/json")]

/-- The invariant of the handler machine, relating the state reached after a
trace `evs` to the accumulated action log. -/
structure HInv (cfg : Cfg) (evs : List HEv) (s : HState) (acts : List HAction) : Prop where
  latch : s.shouldWriteHead = true →
    s.primaryTracked = none ∧ s.respFired = false ∧ s.fbFired = false ∧
    s.errFired = false ∧ s.errWroteHead = false ∧ s.finWroteHead = false ∧
    s.responseHeaders = responseHeadersInit ∧ s.piped = false ∧
    s.respEnded = false ∧ s.statusCode = 200 ∧ s.meterEnded = false ∧
    s.serrFired = false ∧ s.finFired = false
  tracked_none : s.primaryTracked = none →
    s.respFired = false ∧ s.fbFired = false ∧ s.errFired = false
  count_wh : countWH acts =
    s.respFired.toNat + s.fbFired.toNat + s.errFired.toNat +
    s.errWroteHead.toNat + s.finWroteHead.toNat
  not_both_errfin : ¬(s.errWroteHead = true ∧ s.finWroteHead = true)
  errfin_tracked : s.errWroteHead = true ∨ s.finWroteHead = true →
    s.primaryTracked = none
  piped_wh : s.piped = true → 1 ≤ countWH acts
  respEnded_wh : s.respEnded = true → 1 ≤ countWH acts
  chunks_after_head : headsBeforeChunks acts = true
  chunk_sum : s.meterCount = chunkSum acts
  end_payloads : endPayloads acts = if s.meterEnded then [s.meterCount] else []
  err_side : s.errWroteHead = true →
    s.serrFired = true ∧ s.piped = false ∧ s.respEnded = true
  meter_no_errwh : s.meterEnded = true → s.errWroteHead = false
  no_errwh_nobody : s.errWroteHead = false → respEndBodyBytes acts = 0
  resp_src : s.respFired = true →
    ∃ fid, s.primaryTracked = some fid ∧ ∃ st h, HEv.resp fid st h ∈ evs
  fb_src : s.fbFired = true →
    ∃ fid, s.primaryTracked = some fid ∧ HEv.fallback fid ∈ evs
  ferr_src : s.errFired = true →
    ∃ fid, s.primaryTracked = some fid ∧ HEv.ferror fid ∈ evs
  base_hdrs : cfg.filterResponseHeaders = none →
    baselineIn s.responseHeaders ∧
    ∀ st h, HAction.writeHead st h ∈ acts → baselineIn h
  hdrs_unmutated : cfg.filterResponseHeaders = none → s.respFired = false →
    s.responseHeaders = responseHeadersInit

/-! ## The pipe runtime state machine (src/pipe.js) -/

inductive Ready where
  | loading
  | interactive
  | complete
deriving DecidableEq

/-- Truthiness of `doc.readyState && (doc.readyState === 'complete' ||
doc.readyState === 'interactive')`. -/
def readyDone : Ready → Bool
  | .loading => false
  | .interactive => true
  | .complete => true

/-- Pipe runtime state: `initState` (the array of indices of registered,
not-yet-initialised fragments; `push` appends, `pop` removes the last),
`startsRec` (the indices for which `starts[index] = currentScript()` has been
recorded) and the document's readyState. -/
structure PState where
  initState : List Nat
  startsRec : List Nat
  ready : Ready
deriving DecidableEq

def initPState : PState := { initState := [], startsRec := [], ready := .loading }

/-- Hook invocations observable from the pipe runtime. -/
inductive PAction where
  | onStart (attrs : String) (index : Nat)
  | onAfterInit (attrs : String) (index : Nat)
  | onDone
deriving DecidableEq

/-- Pipe runtime events: a server-emitted `Pipe.start(index, script, attrs)`
call, the completion of a registered fragment's initialisation (the shared
cleanup path: `initState.pop(); hooks.onAfterInit(...); fireDone()`), and a
document readyState change. -/
inductive PEv where
  | start (index : Nat) (script : Option String) (attrs : String)
  | complete (index : Nat) (attrs : String)
  | ready (r : Ready)
deriving DecidableEq

/-- `fireDone()` (pipe.js lines 43-51). -/
def fireDone (s : PState) : List PAction :=
  if s.initState = [] && readyDone s.ready then [.onDone] else []

/-- `start(index, script, attributes)` (pipe.js lines 33-40):
`starts[index] = currentScript()` always; only when `script` is truthy is the
index pushed onto `initState`, `hooks.onStart` invoked and the script
required. -/
def pipeStart (index : Nat) (script : Option String) (attrs : String) (s : PState) :
    PState × List PAction :=
  let s1 := { s with startsRec := s.startsRec ++ [index] }
  match script with
  | some _ => ({ s1 with initState := s1.initState ++ [index] }, [.onStart attrs index])
  | none => (s1, [])

/-- The completion cleanup shared by `doInit`'s `handlerFn` and the
non-function-initializer path of `end` (pipe.js lines 57-71 and 103-108):
`initState.pop()`, `hooks.onAfterInit(attributes, index)`, `fireDone()`. -/
def pipeComplete (index : Nat) (attrs : String) (s : PState) : PState × List PAction :=
  let s1 := { s with initState := s.initState.dropLast }
  (s1, PAction.onAfterInit attrs index :: fireDone s1)

def pstep (s : PState) (e : PEv) : PState × List PAction :=
  match e with
  | .start i scr attrs => pipeStart i scr attrs s
  | .complete i attrs => pipeComplete i attrs s
  | .ready r => ({ s with ready := r }, [])

def prunFrom (start : PState × List PAction) (evs : List PEv) : PState × List PAction :=
  evs.foldl (fun acc e =>
    let out := pstep acc.1 e
    (out.1, acc.2 ++ out.2)) start

def prun (evs : List PEv) : PState × List PAction := prunFrom (initPState, []) evs

/-- Number of registering (`script`-carrying) `Pipe.start` calls in a trace. -/
def scriptedCount (evs : List PEv) : Nat :=
  (evs.filter (fun e => match e with | PEv.start _ (some _) _ => true | _ => false)).length

/-- Number of fragment-initialisation completions in a trace. -/
def completeCount (evs : List PEv) : Nat :=
  (evs.filter (fun e => match e with | PEv.complete _ _ => true | _ => false)).length

/-- Registered fragments whose initialisation is still pending after `evs`. -/
def pendingCount (evs : List PEv) : Nat := scriptedCount evs - completeCount evs

/-- Trace admissibility for the pipe runtime: a completion can only happen
while some registered fragment is pending (each completion belongs to exactly
one earlier registering start). -/
def pvalidAux : Nat → Nat → List PEv → Bool
  | _, _, [] => true
  | sc, co, e :: tl =>
      match e with
      | PEv.start _ (some _) _ => pvalidAux (sc + 1) co tl
      | PEv.complete _ _ => decide (co < sc) && pvalidAux sc (co + 1) tl
      | _ => pvalidAux sc co tl

def pvalid (evs : List PEv) : Bool := pvalidAux 0 0 evs

/-! ## Basic lemmas about header maps and logs -/

theorem hget_hset (h : Headers) (k v k' : String) :
    hget (hset h k v) k' = if k' = k then some v else hget h k' := by
  induction h with
  | nil =>
      simp only [hset, hget]
      by_cases hk : k = k'
      · simp [hk]
      · simp [hk, Ne.symm hk]
  | cons p t ih =>
      by_cases hpk : p.1 = k
      · by_cases hk : k = k'
        · simp [hset, hget, hpk, hk]
        · have hpk' : ¬(p.1 = k') := fun hcontra => hk (hpk.symm.trans hcontra)
          simp [hset, hget, hpk, hk, Ne.symm hk, hpk']
      · by_cases hpk' : p.1 = k'
        · have : ¬(k' = k) := fun h => hpk (by rw [hpk', h])
          simp [hset, hget, hpk, hpk', this]
        · simp [hset, hget, hpk, hpk', ih]

theorem baselineIn_hset (h : Headers) (k v : String) (hb : baselineIn h)
    (h1 : k ≠ "Cache-Control") (h2 : k ≠ "Pragma") (h3 : k ≠ "Content-Type") :
    baselineIn (hset h k v) := by
  obtain ⟨b1, b2, b3⟩ := hb
  refine ⟨?_, ?_, ?_⟩ <;> rw [hget_hset] <;>
    simp [Ne.symm h1, Ne.symm h2, Ne.symm h3, b1, b2, b3]

/-! ## C7: the index generator -/

theorem genStateAfter_eq (initialIndex step k : Nat) :
    genStateAfter initialIndex step k = initialIndex + k * step := by
  induction k with
  | zero => simp [genStateAfter, nextIndexGenerator]
  | succ k ih =>
      simp [genStateAfter, nextIndexGenerator, ih]
      ring

theorem genReturn_eq (initialIndex step k : Nat) :
    genReturn initialIndex step k = initialIndex + k * step := by
  simp [genReturn, nextIndexGenerator, genStateAfter_eq]

/-- Claim C7 (confirmed): for every `maxAssetLinks ≥ 1`, the generator
constructed with initial index 0 and step `maxAssetLinks` returns exactly
`k * maxAssetLinks` on its `k`-th call (`k = 0, 1, 2, ...`), and the sequence
of returned indices is strictly increasing. -/
theorem nextIndex_kth_call (step : Nat) (hstep : 1 ≤ step) :
    (∀ k, genReturn 0 step k = k * step) ∧
    (∀ j k, j < k → genReturn 0 step j < genReturn 0 step k) := by
  constructor
  · intro k; simp [genReturn_eq]
  · intro j k hjk
    simp only [genReturn_eq, Nat.zero_add]
    have : j * step < k * step := by
      apply Nat.mul_lt_mul_of_lt_of_le hjk (Nat.le_refl step) hstep
    omega

/-- Witness for C7 at `step = 3`, `k = 2`. -/
theorem nextIndex_kth_call_witness : genReturn 0 3 2 = 2 * 3 :=
  (nextIndex_kth_call 3 (by decide)).1 2

/-! ## C6: preload assets of the primary fragment -/

/-- Counterexample to claim C6 as stated: (1) for a same-host script the code
emits a trailing `"; "` after `nopush` (the template literal always appends
`"; " + crossOrigin`), so the entry is not the claimed
`<uri>; rel="preload"; as="script"; nopush`; (2) the cross-origin test is a
substring test `uri.indexOf("://" + host) < 0`, not a host comparison: for
`http://evil/x?y=://h` with request host `h` the script host `evil` differs
from `h`, yet no `crossorigin` is appended because `"://h"` occurs inside the
uri. -/
theorem preload_format_counterexample :
    getAssetsToPreload [⟨"http://h/a.js", "fragment-script"⟩] (some "h") ≠
      preloadClaimC6 [⟨"http://h/a.js", "fragment-script"⟩] (some "h") ∧
    getAssetsToPreload [⟨"http://h/a.js", "fragment-script"⟩] (some "h") =
      "<http://h/a.js>; rel=\"preload\"; as=\"script\"; nopush; " ∧
    getAssetsToPreload [⟨"http://evil/x?y=://h", "fragment-script"⟩] (some "h") ≠
      preloadClaimC6 [⟨"http://evil/x?y=://h", "fragment-script"⟩] (some "h") ∧
    uriHost "http://evil/x?y=://h" = "evil" := by
  decide

/-- Claim C6 (corrected): for uris that are non-empty strings, the link header
value built from the primary's parsed `link` references consists of
`<uri>; rel="preload"; as="style"; nopush` for each stylesheet reference
followed by `<uri>; rel="preload"; as="script"; nopush; ` (note the trailing
separator) plus `crossorigin` exactly when the request host is present,
non-empty and does not occur as `"://" + host` inside the script uri, all
joined with a comma; it is empty (header absent) exactly when no such
references exist. -/
theorem getAssetsToPreload_eq_amendedC6 (refs : List LinkRef) (host : Option String)
    (hne : ∀ r ∈ refs, r.uri ≠ "") :
    getAssetsToPreload refs host = preloadAmendedC6 refs host := by
  have hcross : ∀ uri : String, getCrossOriginHeader uri host =
      if (match host with
          | some h => h != "" && !(containsSub uri ("://" ++ h))
          | none => false) = true then "crossorigin" else "" := by
    intro uri; cases host <;> rfl
  cases hS : refs.filter (fun r => r.rel = "fragment-script") with
  | nil =>
      cases hT : refs.filter (fun r => r.rel = "stylesheet") with
      | nil => simp [getAssetsToPreload, preloadAmendedC6, hS, hT]
      | cons r t =>
          have hru : r.uri ≠ "" :=
            hne r (List.mem_of_mem_filter (by rw [hT]; exact List.mem_cons_self r t))
          have hb : (r.uri == "") = false := by
            simp [hru]
          simp [getAssetsToPreload, preloadAmendedC6, hS, hT, hb, hcross,
            List.map_map, Function.comp] <;> rfl
  | cons r t =>
      have hru : r.uri ≠ "" :=
        hne r (List.mem_of_mem_filter (by rw [hS]; exact List.mem_cons_self r t))
      have hb : (r.uri == "") = false := by
        simp [hru]
      simp [getAssetsToPreload, preloadAmendedC6, hS, hb, hcross,
        List.map_map, Function.comp] <;> rfl

/-- Witness for the amended C6 on a concrete reference list. -/
theorem getAssetsToPreload_eq_amendedC6_witness :
    getAssetsToPreload
      [⟨"http://cdn/a.css", "stylesheet"⟩, ⟨"http://x/b.js", "fragment-script"⟩]
      (some "h") =
    preloadAmendedC6
      [⟨"http://cdn/a.css", "stylesheet"⟩, ⟨"http://x/b.js", "fragment-script"⟩]
      (some "h") :=
  getAssetsToPreload_eq_amendedC6 _ _ (by decide)

/-! ## Pipe runtime lemmas -/

theorem scriptedCount_append (l m : List PEv) :
    scriptedCount (l ++ m) = scriptedCount l + scriptedCount m := by
  simp [scriptedCount, List.filter_append]

theorem completeCount_append (l m : List PEv) :
    completeCount (l ++ m) = completeCount l + completeCount m := by
  simp [completeCount, List.filter_append]

theorem pvalidAux_append (l m : List PEv) : ∀ sc co,
    pvalidAux sc co (l ++ m) =
      (pvalidAux sc co l &&
        pvalidAux (sc + scriptedCount l) (co + completeCount l) m) := by
  induction l with
  | nil => intro sc co; simp [pvalidAux, scriptedCount, completeCount]
  | cons e tl ih =>
      intro sc co
      match e with
      | PEv.start i (some scr) attrs =>
          have h1 : sc + scriptedCount (PEv.start i (some scr) attrs :: tl) =
              (sc + 1) + scriptedCount tl := by
            simp [scriptedCount, List.filter]; omega
          have h2 : co + completeCount (PEv.start i (some scr) attrs :: tl) =
              co + completeCount tl := by
            simp [completeCount, List.filter]
          simp only [List.cons_append, pvalidAux, List.append_eq, ih, h1, h2]
      | PEv.start i none attrs =>
          have h1 : sc + scriptedCount (PEv.start i none attrs :: tl) =
              sc + scriptedCount tl := by
            simp [scriptedCount, List.filter]
          have h2 : co + completeCount (PEv.start i none attrs :: tl) =
              co + completeCount tl := by
            simp [completeCount, List.filter]
          simp only [List.cons_append, pvalidAux, List.append_eq, ih, h1, h2]
      | PEv.complete i attrs =>
          have h1 : sc + scriptedCount (PEv.complete i attrs :: tl) =
              sc + scriptedCount tl := by
            simp [scriptedCount, List.filter]
          have h2 : co + completeCount (PEv.complete i attrs :: tl) =
              (co + 1) + completeCount tl := by
            simp [completeCount, List.filter]; omega
          simp only [List.cons_append, pvalidAux, List.append_eq, ih, h1, h2,
            Bool.and_assoc]
      | PEv.ready r =>
          have h1 : sc + scriptedCount (PEv.ready r :: tl) = sc + scriptedCount tl := by
            simp [scriptedCount, List.filter]
          have h2 : co + completeCount (PEv.ready r :: tl) = co + completeCount tl := by
            simp [completeCount, List.filter]
          simp only [List.cons_append, pvalidAux, List.append_eq, ih, h1, h2]

theorem prunFrom_cons (p : PState × List PAction) (e : PEv) (tl : List PEv) :
    prunFrom p (e :: tl) = prunFrom ((pstep p.1 e).1, p.2 ++ (pstep p.1 e).2) tl := rfl

theorem prunFrom_cons' (s : PState) (acts : List PAction) (e : PEv) (tl : List PEv) :
    prunFrom (s, acts) (e :: tl) = prunFrom ((pstep s e).1, acts ++ (pstep s e).2) tl := rfl

theorem prunFrom_append (p : PState × List PAction) (l m : List PEv) :
    prunFrom p (l ++ m) = prunFrom (prunFrom p l) m := by
  simp [prunFrom, List.foldl_append]

/-- The length of `initState` tracks the number of registered-but-pending
fragments along any admissible trace. -/
theorem initState_length (evs : List PEv) : ∀ (s : PState) (acts : List PAction) (sc co : Nat),
    pvalidAux sc co evs = true → co ≤ sc → s.initState.length + co = sc →
    (prunFrom (s, acts) evs).1.initState.length + (co + completeCount evs) =
        sc + scriptedCount evs ∧
    co + completeCount evs ≤ sc + scriptedCount evs := by
  induction evs with
  | nil =>
      intro s acts sc co _ hle hlen
      simp [prunFrom, scriptedCount, completeCount]
      omega
  | cons e tl ih =>
      intro s acts sc co hv hle hlen
      match e with
      | PEv.start i (some scr) attrs =>
          simp only [pvalidAux] at hv
          have := ih ((pstep s (PEv.start i (some scr) attrs)).1)
            (acts ++ (pstep s (PEv.start i (some scr) attrs)).2) (sc + 1) co hv
            (by omega)
            (by simp [pstep, pipeStart]; omega)
          rw [prunFrom_cons']
          have hsc : scriptedCount (PEv.start i (some scr) attrs :: tl) =
              1 + scriptedCount tl := by simp [scriptedCount, List.filter]; omega
          have hco : completeCount (PEv.start i (some scr) attrs :: tl) =
              completeCount tl := by simp [completeCount, List.filter]
          rw [hsc, hco]
          omega
      | PEv.start i none attrs =>
          simp only [pvalidAux] at hv
          have := ih ((pstep s (PEv.start i none attrs)).1)
            (acts ++ (pstep s (PEv.start i none attrs)).2) sc co hv hle
            (by simp [pstep, pipeStart]; omega)
          rw [prunFrom_cons']
          have hsc : scriptedCount (PEv.start i none attrs :: tl) = scriptedCount tl := by
            simp [scriptedCount, List.filter]
          have hco : completeCount (PEv.start i none attrs :: tl) = completeCount tl := by
            simp [completeCount, List.filter]
          rw [hsc, hco]
          omega
      | PEv.complete i attrs =>
          simp only [pvalidAux, Bool.and_eq_true, decide_eq_true_eq] at hv
          obtain ⟨hlt, hv⟩ := hv
          have hlen1 : 1 ≤ s.initState.length := by omega
          have := ih ((pstep s (PEv.complete i attrs)).1)
            (acts ++ (pstep s (PEv.complete i attrs)).2) sc (co + 1) hv
            (by omega)
            (by simp [pstep, pipeComplete, List.length_dropLast]; omega)
          rw [prunFrom_cons']
          have hsc : scriptedCount (PEv.complete i attrs :: tl) = scriptedCount tl := by
            simp [scriptedCount, List.filter]
          have hco : completeCount (PEv.complete i attrs :: tl) =
              1 + completeCount tl := by simp [completeCount, List.filter]; omega
          rw [hsc, hco]
          omega
      | PEv.ready r =>
          simp only [pvalidAux] at hv
          have := ih ((pstep s (PEv.ready r)).1)
            (acts ++ (pstep s (PEv.ready r)).2) sc co hv hle
            (by simp [pstep]; omega)
          rw [prunFrom_cons']
          have hsc : scriptedCount (PEv.ready r :: tl) = scriptedCount tl := by
            simp [scriptedCount, List.filter]
          have hco : completeCount (PEv.ready r :: tl) = completeCount tl := by
            simp [completeCount, List.filter]
          rw [hsc, hco]
          omega

/-! ## C9 / C10: the pipe runtime -/

/-- Claim C9 (corrected): along any admissible trace, `onDone` is invoked
exactly at fragment-completion steps after which no registered fragment is
pending and the document has finished parsing; it is never invoked while some
registered fragment's initialisation is pending nor before the document has
finished parsing, and neither a `Pipe.start` call nor a readyState change by
itself ever invokes it (in particular, a trace in which the last fragment
completes while the document is still loading never fires `onDone`). -/
theorem onDone_at_completion_steps (evs : List PEv) (hv : pvalid evs = true) :
    ∀ pre e post, evs = pre ++ e :: post →
      (PAction.onDone ∈ (pstep (prun pre).1 e).2 →
        pendingCount (pre ++ [e]) = 0 ∧
        readyDone (pstep (prun pre).1 e).1.ready = true) ∧
      (∀ i attrs, e = PEv.complete i attrs →
        (PAction.onDone ∈ (pstep (prun pre).1 e).2 ↔
          (pendingCount (pre ++ [e]) = 0 ∧
           readyDone (pstep (prun pre).1 e).1.ready = true))) ∧
      (∀ r, e = PEv.ready r → PAction.onDone ∉ (pstep (prun pre).1 e).2) ∧
      (∀ i scr attrs, e = PEv.start i scr attrs →
        PAction.onDone ∉ (pstep (prun pre).1 e).2) := by
  intro pre e post hsplit
  rw [hsplit] at hv
  rw [pvalid, pvalidAux_append, Bool.and_eq_true] at hv
  obtain ⟨hvpre, hvrest⟩ := hv
  simp only [Nat.zero_add] at hvrest
  have hlen0 := initState_length pre initPState [] 0 0 hvpre (Nat.le_refl 0) (by rfl)
  simp only [Nat.zero_add] at hlen0
  have hlen : (prun pre).1.initState.length + completeCount pre = scriptedCount pre :=
    hlen0.1
  have hle : completeCount pre ≤ scriptedCount pre := hlen0.2
  match e with
  | PEv.complete i attrs =>
      simp only [pvalidAux, Bool.and_eq_true, decide_eq_true_eq] at hvrest
      obtain ⟨hlt, _⟩ := hvrest
      have key : PAction.onDone ∈ (pstep (prun pre).1 (PEv.complete i attrs)).2 ↔
          (pendingCount (pre ++ [PEv.complete i attrs]) = 0 ∧
           readyDone (pstep (prun pre).1 (PEv.complete i attrs)).1.ready = true) := by
        have hpend : pendingCount (pre ++ [PEv.complete i attrs]) =
            (prun pre).1.initState.length - 1 := by
          unfold pendingCount
          rw [scriptedCount_append, completeCount_append]
          have h1 : scriptedCount [PEv.complete i attrs] = 0 := by
            simp [scriptedCount, List.filter]
          have h2 : completeCount [PEv.complete i attrs] = 1 := by
            simp [completeCount, List.filter]
          omega
        have hlendrop : ((prun pre).1.initState.dropLast).length =
            (prun pre).1.initState.length - 1 := by
          simp [List.length_dropLast]
        simp only [pstep, pipeComplete, fireDone, List.mem_cons]
        constructor
        · intro hmem
          rcases hmem with hmem | hmem
          · exact absurd hmem (by simp)
          · by_cases hcond : ((prun pre).1.initState.dropLast = [] ∧
                readyDone (prun pre).1.ready = true)
            · refine ⟨?_, hcond.2⟩
              rw [hpend, ← hlendrop, List.length_eq_zero]
              exact hcond.1
            · rw [if_neg (by simpa [Bool.and_eq_true] using hcond)] at hmem
              exact absurd hmem (List.not_mem_nil _)
        · intro hcond
          obtain ⟨hp, hr⟩ := hcond
          rw [hpend, ← hlendrop, List.length_eq_zero] at hp
          rw [if_pos (by simp [hp, hr])]
          exact Or.inr (List.mem_singleton.mpr rfl)
      refine ⟨fun hmem => key.mp hmem, ?_, ?_, ?_⟩
      · intro i' attrs' heq
        cases heq
        exact key
      · intro r heq
        exact nomatch heq
      · intro i' scr' attrs' heq
        exact nomatch heq
  | PEv.start i scr attrs =>
      have hnot : PAction.onDone ∉ (pstep (prun pre).1 (PEv.start i scr attrs)).2 := by
        cases scr <;> simp [pstep, pipeStart]
      refine ⟨fun hmem => absurd hmem hnot, ?_, ?_, ?_⟩
      · intro i' attrs' heq
        exact nomatch heq
      · intro r heq
        exact nomatch heq
      · intro i' scr' attrs' heq
        exact hnot
  | PEv.ready r =>
      have hnot : PAction.onDone ∉ (pstep (prun pre).1 (PEv.ready r)).2 := by
        simp [pstep]
      refine ⟨fun hmem => absurd hmem hnot, ?_, ?_, ?_⟩
      · intro i' attrs' heq
        exact nomatch heq
      · intro r' heq
        exact hnot
      · intro i' scr' attrs' heq
        exact nomatch heq

/-- Counterexample to claim C9 as stated: in the admissible trace where the
only registered fragment completes its initialisation while the document is
still loading and the document only afterwards finishes parsing, the final
state has every registered fragment initialised (`initState` empty) and the
document parsed, yet `onDone` was never invoked — `fireDone` is only called
from the completion paths, never on a readyState change. -/
theorem onDone_missed_when_done_before_parse :
    pvalid [PEv.start 0 (some "s") "a", PEv.complete 0 "a",
      PEv.ready Ready.interactive] = true ∧
    (prun [PEv.start 0 (some "s") "a", PEv.complete 0 "a",
      PEv.ready Ready.interactive]).1.initState = [] ∧
    readyDone (prun [PEv.start 0 (some "s") "a", PEv.complete 0 "a",
      PEv.ready Ready.interactive]).1.ready = true ∧
    PAction.onDone ∉ (prun [PEv.start 0 (some "s") "a", PEv.complete 0 "a",
      PEv.ready Ready.interactive]).2 := by
  decide

/-- Witness for the amended C9: a completion that empties `initState` after
the document became interactive does invoke `onDone`. -/
theorem onDone_at_completion_steps_witness :
    PAction.onDone ∈ (pstep (prun [PEv.start 0 (some "s") "a",
      PEv.ready Ready.interactive]).1 (PEv.complete 0 "a")).2 := by
  have h := onDone_at_completion_steps
    [PEv.start 0 (some "s") "a", PEv.ready Ready.interactive, PEv.complete 0 "a"]
    (by decide)
    [PEv.start 0 (some "s") "a", PEv.ready Ready.interactive]
    (PEv.complete 0 "a") [] rfl
  exact (h.2.1 0 "a" rfl).mpr (by decide)

theorem pstep_startsRec_indep (s t : PState) (hinit : s.initState = t.initState)
    (hready : s.ready = t.ready) (e : PEv) :
    (pstep s e).1.initState = (pstep t e).1.initState ∧
    (pstep s e).1.ready = (pstep t e).1.ready ∧
    (pstep s e).2 = (pstep t e).2 := by
  match e with
  | PEv.start i scr attrs => cases scr <;> simp [pstep, pipeStart, hinit, hready]
  | PEv.complete i attrs => simp [pstep, pipeComplete, fireDone, hinit, hready]
  | PEv.ready r => simp [pstep, hinit, hready]

theorem prunFrom_startsRec_indep (evs : List PEv) :
    ∀ (s t : PState) (acts : List PAction),
    s.initState = t.initState → s.ready = t.ready →
    (prunFrom (s, acts) evs).1.initState = (prunFrom (t, acts) evs).1.initState ∧
    (prunFrom (s, acts) evs).1.ready = (prunFrom (t, acts) evs).1.ready ∧
    (prunFrom (s, acts) evs).2 = (prunFrom (t, acts) evs).2 := by
  induction evs with
  | nil => intro s t acts h1 h2; exact ⟨h1, h2, rfl⟩
  | cons e tl ih =>
      intro s t acts h1 h2
      obtain ⟨g1, g2, g3⟩ := pstep_startsRec_indep s t h1 h2 e
      rw [prunFrom_cons', prunFrom_cons', g3]
      exact ih (pstep s e).1 (pstep t e).1 (acts ++ (pstep t e).2) g1 g2

/-- Claim C10 (confirmed): `start(index, script, attributes)` always records
the current script element for the index (`starts[index]`); only when `script`
is present does it also register the fragment for completion tracking (append
the index to `initState`) and invoke the `onStart` hook.  A scriptless
`Pipe.start` call inserted anywhere in a trace changes neither `initState` nor
any hook invocation, so scriptless fragments never count toward `onDone`. -/
theorem start_registers_only_with_script :
    (∀ (s : PState) (i : Nat) (scr attrs : String),
      pipeStart i (some scr) attrs s =
        ({ s with startsRec := s.startsRec ++ [i],
                  initState := s.initState ++ [i] }, [PAction.onStart attrs i]) ∧
      pipeStart i none attrs s =
        ({ s with startsRec := s.startsRec ++ [i] }, [])) ∧
    (∀ (pre post : List PEv) (i : Nat) (attrs : String),
      (prun (pre ++ PEv.start i none attrs :: post)).1.initState =
        (prun (pre ++ post)).1.initState ∧
      (prun (pre ++ PEv.start i none attrs :: post)).2 =
        (prun (pre ++ post)).2) := by
  constructor
  · intro s i scr attrs
    exact ⟨rfl, rfl⟩
  · intro pre post i attrs
    unfold prun
    rw [prunFrom_append, prunFrom_append]
    have hpre : prunFrom (initPState, []) pre =
        ((prunFrom (initPState, []) pre).1, (prunFrom (initPState, []) pre).2) := rfl
    rw [hpre, prunFrom_cons']
    have hstep : (pstep (prunFrom (initPState, []) pre).1 (PEv.start i none attrs)).2 =
        [] := rfl
    rw [hstep, List.append_nil]
    have := prunFrom_startsRec_indep post
      (pstep (prunFrom (initPState, []) pre).1 (PEv.start i none attrs)).1
      (prunFrom (initPState, []) pre).1
      (prunFrom (initPState, []) pre).2
      (by simp [pstep, pipeStart]) (by simp [pstep, pipeStart])
    exact ⟨this.1, this.2.2⟩

/-! ## Handler log lemmas -/

theorem countWH_append (l m : List HAction) :
    countWH (l ++ m) = countWH l + countWH m := by
  simp [countWH, List.filter_append]

theorem whStatuses_append (l m : List HAction) :
    whStatuses (l ++ m) = whStatuses l ++ whStatuses m := by
  simp [whStatuses, List.filterMap_append]

theorem endPayloads_append (l m : List HAction) :
    endPayloads (l ++ m) = endPayloads l ++ endPayloads m := by
  simp [endPayloads, List.filterMap_append]

theorem chunkSum_append (l m : List HAction) :
    chunkSum (l ++ m) = chunkSum l + chunkSum m := by
  simp [chunkSum]

theorem respEndBodyBytes_append (l m : List HAction) :
    respEndBodyBytes (l ++ m) = respEndBodyBytes l + respEndBodyBytes m := by
  simp [respEndBodyBytes]

theorem hbAux_true_of_nochunk (m : List HAction) (h : ∀ a ∈ m, isChunkA a = false) :
    ∀ s, hbAux s m = true := by
  induction m with
  | nil => intro s; rfl
  | cons a tl ih =>
      intro s
      have ha := h a (List.mem_cons_self a tl)
      have htl : ∀ x ∈ tl, isChunkA x = false := fun x hx => h x (List.mem_cons_of_mem a hx)
      match a with
      | HAction.chunk n => exact absurd ha (by simp [isChunkA])
      | HAction.writeHead st hd => simpa [hbAux] using ih htl true
      | HAction.emitStart => simpa [hbAux] using ih htl s
      | HAction.emitCtxError => simpa [hbAux] using ih htl s
      | HAction.emitError => simpa [hbAux] using ih htl s
      | HAction.emitResponse st hd => simpa [hbAux] using ih htl s
      | HAction.emitEnd n => simpa [hbAux] using ih htl s
      | HAction.pipeThrough => simpa [hbAux] using ih htl s
      | HAction.respEnd b => simpa [hbAux] using ih htl s

theorem hbAux_append (l m : List HAction) : ∀ s,
    hbAux s (l ++ m) = (hbAux s l && hbAux (s || decide (1 ≤ countWH l)) m) := by
  induction l with
  | nil => intro s; simp [hbAux, countWH]
  | cons a tl ih =>
      intro s
      match a with
      | HAction.chunk n =>
          have hc : countWH (HAction.chunk n :: tl) = countWH tl := by
            simp [countWH, List.filter, isWriteHead]
          simp only [List.cons_append, hbAux, List.append_eq, ih, hc, Bool.and_assoc]
      | HAction.writeHead st hd =>
          have hc : countWH (HAction.writeHead st hd :: tl) = countWH tl + 1 := by
            simp [countWH, List.filter, isWriteHead]
          simp only [List.cons_append, hbAux, List.append_eq, ih, hc]
          simp
      | HAction.emitStart =>
          have hc : countWH (HAction.emitStart :: tl) = countWH tl := by
            simp [countWH, List.filter, isWriteHead]
          simp only [List.cons_append, hbAux, List.append_eq, ih, hc]
      | HAction.emitCtxError =>
          have hc : countWH (HAction.emitCtxError :: tl) = countWH tl := by
            simp [countWH, List.filter, isWriteHead]
          simp only [List.cons_append, hbAux, List.append_eq, ih, hc]
      | HAction.emitError =>
          have hc : countWH (HAction.emitError :: tl) = countWH tl := by
            simp [countWH, List.filter, isWriteHead]
          simp only [List.cons_append, hbAux, List.append_eq, ih, hc]
      | HAction.emitResponse st hd =>
          have hc : countWH (HAction.emitResponse st hd :: tl) = countWH tl := by
            simp [countWH, List.filter, isWriteHead]
          simp only [List.cons_append, hbAux, List.append_eq, ih, hc]
      | HAction.emitEnd n =>
          have hc : countWH (HAction.emitEnd n :: tl) = countWH tl := by
            simp [countWH, List.filter, isWriteHead]
          simp only [List.cons_append, hbAux, List.append_eq, ih, hc]
      | HAction.pipeThrough =>
          have hc : countWH (HAction.pipeThrough :: tl) = countWH tl := by
            simp [countWH, List.filter, isWriteHead]
          simp only [List.cons_append, hbAux, List.append_eq, ih, hc]
      | HAction.respEnd b =>
          have hc : countWH (HAction.respEnd b :: tl) = countWH tl := by
            simp [countWH, List.filter, isWriteHead]
          simp only [List.cons_append, hbAux, List.append_eq, ih, hc]

theorem headsBeforeChunks_append_nochunk (l m : List HAction)
    (hl : headsBeforeChunks l = true) (hm : ∀ a ∈ m, isChunkA a = false) :
    headsBeforeChunks (l ++ m) = true := by
  unfold headsBeforeChunks at *
  rw [hbAux_append]
  simp [hl, hbAux_true_of_nochunk m hm]

theorem headsBeforeChunks_append_chunk (l : List HAction) (n : Nat)
    (hl : headsBeforeChunks l = true) (hwh : 1 ≤ countWH l) :
    headsBeforeChunks (l ++ [HAction.chunk n]) = true := by
  unfold headsBeforeChunks at *
  rw [hbAux_append]
  simp [hl, hbAux, hwh]

/-! ## primaryResponse lemmas -/

theorem primaryResponse_fields (cfg : Cfg) (st : Nat) (h : UHeaders) (s : HState) :
    (primaryResponse cfg st h s).1.shouldWriteHead = s.shouldWriteHead ∧
    (primaryResponse cfg st h s).1.primaryTracked = s.primaryTracked ∧
    (primaryResponse cfg st h s).1.respFired = true ∧
    (primaryResponse cfg st h s).1.fbFired = s.fbFired ∧
    (primaryResponse cfg st h s).1.errFired = s.errFired ∧
    (primaryResponse cfg st h s).1.finFired = s.finFired ∧
    (primaryResponse cfg st h s).1.serrFired = s.serrFired ∧
    (primaryResponse cfg st h s).1.errWroteHead = s.errWroteHead ∧
    (primaryResponse cfg st h s).1.finWroteHead = s.finWroteHead ∧
    (primaryResponse cfg st h s).1.piped = true ∧
    (primaryResponse cfg st h s).1.meterCount = s.meterCount ∧
    (primaryResponse cfg st h s).1.meterEnded = s.meterEnded ∧
    (primaryResponse cfg st h s).1.respEnded = s.respEnded ∧
    (primaryResponse cfg st h s).2 =
      [HAction.emitResponse st (primaryResponse cfg st h s).1.responseHeaders,
       HAction.writeHead st (primaryResponse cfg st h s).1.responseHeaders,
       HAction.pipeThrough] := by
  refine ⟨rfl, rfl, rfl, rfl, rfl, rfl, rfl, rfl, rfl, rfl, rfl, rfl, rfl, rfl⟩

theorem baselineIn_loc (x : Headers) (loc : Option String) (hb : baselineIn x) :
    baselineIn (match loc with
      | some l => if l != "" then hset x "location" l else x
      | none => x) := by
  match loc with
  | none => exact hb
  | some l =>
      show baselineIn (if l != "" then hset x "location" l else x)
      by_cases hl : (l != "") = true
      · rw [if_pos hl]
        exact baselineIn_hset _ _ _ hb (by decide) (by decide) (by decide)
      · rw [if_neg hl]
        exact hb

theorem primaryResponse_baseline (cfg : Cfg) (st : Nat) (h : UHeaders) (s : HState)
    (hf : cfg.filterResponseHeaders = none) (hb : baselineIn s.responseHeaders) :
    baselineIn (primaryResponse cfg st h s).1.responseHeaders := by
  unfold primaryResponse
  simp only [hf]
  by_cases hpl : ((match h.link with
      | some refs => getAssetsToPreload refs cfg.host
      | none => "") != "") = true
  · rw [if_pos hpl]
    exact baselineIn_hset _ _ _ (baselineIn_loc _ _ hb) (by decide) (by decide) (by decide)
  · rw [if_neg hpl]
    exact baselineIn_loc _ _ hb

theorem primaryResponse_default_headers (cfg : Cfg) (st : Nat) (h : UHeaders)
    (s : HState) (hf : cfg.filterResponseHeaders = none)
    (hs : s.responseHeaders = responseHeadersInit) :
    (primaryResponse cfg st h s).1.responseHeaders = primaryHeadersDefault cfg h := by
  unfold primaryResponse primaryHeadersDefault
  simp only [hf, hs]

/-! ## Handler invariant: initialisation, monotonicity, preservation -/

theorem hinv_mono (cfg : Cfg) (evs evs' : List HEv) (s : HState) (acts : List HAction)
    (h : HInv cfg evs s acts) (hsub : ∀ x ∈ evs, x ∈ evs') : HInv cfg evs' s acts := by
  refine ⟨h.latch, h.tracked_none, h.count_wh, h.not_both_errfin, h.errfin_tracked,
    h.piped_wh, h.respEnded_wh, h.chunks_after_head, h.chunk_sum, h.end_payloads,
    h.err_side, h.meter_no_errwh, h.no_errwh_nobody, ?_, ?_, ?_, h.base_hdrs,
    h.hdrs_unmutated⟩
  · intro hr
    obtain ⟨fid, h1, st, hh, hmem⟩ := h.resp_src hr
    exact ⟨fid, h1, st, hh, hsub _ hmem⟩
  · intro hr
    obtain ⟨fid, h1, hmem⟩ := h.fb_src hr
    exact ⟨fid, h1, hsub _ hmem⟩
  · intro hr
    obtain ⟨fid, h1, hmem⟩ := h.ferr_src hr
    exact ⟨fid, h1, hsub _ hmem⟩

theorem hinv_init (cfg : Cfg) (c : Headers) :
    HInv cfg [] { initHState with ctx := c } [] := by
  refine ⟨?_, ?_, ?_, ?_, ?_, ?_, ?_, ?_, ?_, ?_, ?_, ?_, ?_, ?_, ?_, ?_, ?_, ?_⟩ <;>
    simp [initHState, countWH, headsBeforeChunks, hbAux, chunkSum, endPayloads,
      respEndBodyBytes, baselineIn, responseHeadersInit, hget, List.filter]

theorem tracked_flags (cfg : Cfg) (evs : List HEv) (s : HState) (acts : List HAction)
    (hinv : HInv cfg evs s acts) (fid : Nat) (htr : s.primaryTracked = some fid) :
    s.shouldWriteHead = false ∧ s.errWroteHead = false ∧ s.finWroteHead = false := by
  refine ⟨?_, ?_, ?_⟩
  · cases hsw : s.shouldWriteHead with
    | false => rfl
    | true =>
        have h0 := (hinv.latch hsw).1
        rw [htr] at h0
        exact absurd h0 (by simp)
  · cases he : s.errWroteHead with
    | false => rfl
    | true =>
        have h0 := hinv.errfin_tracked (Or.inl he)
        rw [htr] at h0
        exact absurd h0 (by simp)
  · cases he : s.finWroteHead with
    | false => rfl
    | true =>
        have h0 := hinv.errfin_tracked (Or.inr he)
        rw [htr] at h0
        exact absurd h0 (by simp)

theorem hinv_step (cfg : Cfg) (evs : List HEv) (s : HState) (acts : List HAction)
    (hinv : HInv cfg evs s acts) (e : HEv) :
    HInv cfg (evs ++ [e]) (hstep cfg s e).1 (acts ++ (hstep cfg s e).2) := by
  have hmono : ∀ x ∈ evs, x ∈ evs ++ [e] := fun x hx => List.mem_append_left _ hx
  match e with
  | HEv.found primary fid =>
      by_cases hg : (primary && s.shouldWriteHead) = true
      · obtain ⟨hp, hl⟩ : primary = true ∧ s.shouldWriteHead = true := by simpa using hg
        obtain ⟨hTr, hRf, hFf, hEf, hEw, hFw, hHd, hPi, hRe, hSt, hMe, hSe, hFi⟩ :=
          hinv.latch hl
        have hs : hstep cfg s (HEv.found primary fid) =
            ({ s with shouldWriteHead := false, primaryTracked := some fid }, []) := by
          simp only [hstep]
          rw [if_pos hg]
        simp only [hs, List.append_nil]
        refine ⟨?_, ?_, ?_, ?_, ?_, ?_, ?_, ?_, ?_, ?_, ?_, ?_, ?_, ?_, ?_, ?_, ?_, ?_⟩
        · intro h0; exact absurd h0 (by simp)
        · intro h0; exact absurd h0 (by simp)
        · exact hinv.count_wh
        · exact hinv.not_both_errfin
        · intro h0; exact absurd h0 (by simp [hEw, hFw])
        · exact hinv.piped_wh
        · exact hinv.respEnded_wh
        · exact hinv.chunks_after_head
        · exact hinv.chunk_sum
        · exact hinv.end_payloads
        · intro h0; exact absurd h0 (by simp [hEw])
        · exact hinv.meter_no_errwh
        · exact hinv.no_errwh_nobody
        · intro h0; exact absurd h0 (by simp [hRf])
        · intro h0; exact absurd h0 (by simp [hFf])
        · intro h0; exact absurd h0 (by simp [hEf])
        · exact hinv.base_hdrs
        · exact hinv.hdrs_unmutated
      · have hs : hstep cfg s (HEv.found primary fid) = (s, []) := by
          simp only [hstep]
          rw [if_neg hg]
        simp only [hs, List.append_nil]
        exact hinv_mono cfg evs _ s acts hinv hmono
  | HEv.resp fid st h =>
      by_cases hg : (s.primaryTracked == some fid && !s.respFired) = true
      · obtain ⟨htr, hnr⟩ : s.primaryTracked = some fid ∧ s.respFired = false := by
          simpa using hg
        obtain ⟨hlf, herrW, hfinW⟩ := tracked_flags cfg evs s acts hinv fid htr
        have hs : hstep cfg s (HEv.resp fid st h) = primaryResponse cfg st h s := by
          simp only [hstep]
          rw [if_pos hg]
        obtain ⟨f1, f2, f3, f4, f5, f6, f7, f8, f9, f10, f11, f12, f13, f14⟩ :=
          primaryResponse_fields cfg st h s
        have hA : countWH (primaryResponse cfg st h s).2 = 1 := by
          rw [f14]; simp [countWH, List.filter, isWriteHead]
        simp only [hs]
        refine ⟨?_, ?_, ?_, ?_, ?_, ?_, ?_, ?_, ?_, ?_, ?_, ?_, ?_, ?_, ?_, ?_, ?_, ?_⟩
        · intro h0; rw [f1, hlf] at h0; exact absurd h0 (by simp)
        · intro h0; rw [f2, htr] at h0; exact absurd h0 (by simp)
        · rw [countWH_append, hA, hinv.count_wh, f3, f4, f5, f8, f9, hnr]
          simp only [Bool.toNat_false, Bool.toNat_true]
          omega
        · intro h0
          obtain ⟨h1, h2⟩ := h0
          rw [f8] at h1
          exact absurd (hinv.errfin_tracked (Or.inl h1)) (by rw [htr]; simp)
        · intro h0
          rcases h0 with h0 | h0
          · rw [f8] at h0
            exact absurd (hinv.errfin_tracked (Or.inl h0)) (by rw [htr]; simp)
          · rw [f9] at h0
            exact absurd (hinv.errfin_tracked (Or.inr h0)) (by rw [htr]; simp)
        · intro _
          rw [countWH_append, hA]
          omega
        · intro h0
          rw [f13] at h0
          have := hinv.respEnded_wh h0
          rw [countWH_append]
          omega
        · rw [f14]
          refine headsBeforeChunks_append_nochunk _ _ hinv.chunks_after_head ?_
          intro a ha
          simp only [List.mem_cons, List.not_mem_nil, or_false] at ha
          rcases ha with rfl | rfl | rfl <;> rfl
        · rw [f11, chunkSum_append, f14]
          have hz : chunkSum [HAction.emitResponse st (primaryResponse cfg st h s).1.responseHeaders,
              HAction.writeHead st (primaryResponse cfg st h s).1.responseHeaders,
              HAction.pipeThrough] = 0 := by simp [chunkSum]
          rw [hz, hinv.chunk_sum]
          omega
        · rw [endPayloads_append, f14, f12, f11]
          have : endPayloads [HAction.emitResponse st (primaryResponse cfg st h s).1.responseHeaders,
              HAction.writeHead st (primaryResponse cfg st h s).1.responseHeaders,
              HAction.pipeThrough] = [] := by simp [endPayloads]
          rw [this, List.append_nil, hinv.end_payloads]
        · intro h0
          rw [f8] at h0
          exact absurd (hinv.errfin_tracked (Or.inl h0)) (by rw [htr]; simp)
        · intro h0
          rw [f12] at h0
          rw [f8]
          exact hinv.meter_no_errwh h0
        · intro h0
          rw [f8] at h0
          rw [respEndBodyBytes_append, f14]
          have : respEndBodyBytes [HAction.emitResponse st (primaryResponse cfg st h s).1.responseHeaders,
              HAction.writeHead st (primaryResponse cfg st h s).1.responseHeaders,
              HAction.pipeThrough] = 0 := by simp [respEndBodyBytes]
          rw [this, hinv.no_errwh_nobody h0]
        · intro _
          refine ⟨fid, ?_, st, h, ?_⟩
          · rw [f2]; exact htr
          · exact List.mem_append_right _ (List.mem_singleton.mpr rfl)
        · intro h0
          rw [f4] at h0
          obtain ⟨fid', h1, hm⟩ := hinv.fb_src h0
          exact ⟨fid', by rw [f2]; exact h1, hmono _ hm⟩
        · intro h0
          rw [f5] at h0
          obtain ⟨fid', h1, hm⟩ := hinv.ferr_src h0
          exact ⟨fid', by rw [f2]; exact h1, hmono _ hm⟩
        · intro hf
          obtain ⟨b1, b2⟩ := hinv.base_hdrs hf
          have hbase := primaryResponse_baseline cfg st h s hf b1
          refine ⟨hbase, ?_⟩
          intro st' h' hm
          rw [List.mem_append] at hm
          rcases hm with hm | hm
          · exact b2 st' h' hm
          · rw [f14] at hm
            simp only [List.mem_cons, List.not_mem_nil, or_false] at hm
            rcases hm with hm | hm | hm
            · exact absurd hm (by simp)
            · obtain ⟨hst, hh⟩ := HAction.writeHead.inj hm
              rw [hh]
              exact hbase
            · exact absurd hm (by simp)
        · intro hf h0
          rw [f3] at h0
          exact absurd h0 (by simp)
      · have hs : hstep cfg s (HEv.resp fid st h) = (s, []) := by
          simp only [hstep]
          rw [if_neg hg]
        simp only [hs, List.append_nil]
        exact hinv_mono cfg evs _ s acts hinv hmono
  | HEv.fallback fid =>
      by_cases hg : (s.primaryTracked == some fid && !s.fbFired) = true
      · obtain ⟨htr, hnf⟩ : s.primaryTracked = some fid ∧ s.fbFired = false := by
          simpa using hg
        obtain ⟨hlf, herrW, hfinW⟩ := tracked_flags cfg evs s acts hinv fid htr
        have hs : hstep cfg s (HEv.fallback fid) =
            ({ s with fbFired := true, piped := true, statusCode := 500 },
             [HAction.emitError, HAction.writeHead 500 s.responseHeaders,
              HAction.pipeThrough]) := by
          simp only [hstep]
          rw [if_pos hg]
        have hA : countWH [HAction.emitError, HAction.writeHead 500 s.responseHeaders,
            HAction.pipeThrough] = 1 := by simp [countWH, List.filter, isWriteHead]
        simp only [hs]
        refine ⟨?_, ?_, ?_, ?_, ?_, ?_, ?_, ?_, ?_, ?_, ?_, ?_, ?_, ?_, ?_, ?_, ?_, ?_⟩
        · intro h0; exact absurd h0 (by simp [hlf])
        · intro h0; simp [htr] at h0
        · rw [countWH_append, hA, hinv.count_wh]
          dsimp only
          rw [hnf]
          simp
          omega
        · intro h0
          exact absurd (hinv.errfin_tracked (Or.inl h0.1)) (by rw [htr]; simp)
        · intro h0
          rcases h0 with h0 | h0
          · exact absurd (hinv.errfin_tracked (Or.inl h0)) (by rw [htr]; simp)
          · exact absurd (hinv.errfin_tracked (Or.inr h0)) (by rw [htr]; simp)
        · intro _
          rw [countWH_append, hA]
          omega
        · intro h0
          have := hinv.respEnded_wh h0
          rw [countWH_append]
          omega
        · refine headsBeforeChunks_append_nochunk _ _ hinv.chunks_after_head ?_
          intro a ha
          simp only [List.mem_cons, List.not_mem_nil, or_false] at ha
          rcases ha with rfl | rfl | rfl <;> rfl
        · dsimp only
          rw [chunkSum_append]
          have hz : chunkSum [HAction.emitError, HAction.writeHead 500 s.responseHeaders,
              HAction.pipeThrough] = 0 := by simp [chunkSum]
          rw [hz, hinv.chunk_sum]
          omega
        · dsimp only
          rw [endPayloads_append]
          have hz : endPayloads [HAction.emitError, HAction.writeHead 500 s.responseHeaders,
              HAction.pipeThrough] = [] := by simp [endPayloads]
          rw [hz, List.append_nil, hinv.end_payloads]
        · intro h0
          exact absurd (hinv.errfin_tracked (Or.inl h0)) (by rw [htr]; simp)
        · intro h0
          exact hinv.meter_no_errwh h0
        · intro h0
          rw [respEndBodyBytes_append]
          have hz : respEndBodyBytes [HAction.emitError,
              HAction.writeHead 500 s.responseHeaders, HAction.pipeThrough] = 0 := by
            simp [respEndBodyBytes]
          rw [hz, hinv.no_errwh_nobody h0]
        · intro h0
          obtain ⟨fid', h1, st', hh', hm⟩ := hinv.resp_src h0
          exact ⟨fid', h1, st', hh', hmono _ hm⟩
        · intro _
          exact ⟨fid, htr, List.mem_append_right _ (List.mem_singleton.mpr rfl)⟩
        · intro h0
          obtain ⟨fid', h1, hm⟩ := hinv.ferr_src h0
          exact ⟨fid', h1, hmono _ hm⟩
        · intro hf
          obtain ⟨b1, b2⟩ := hinv.base_hdrs hf
          refine ⟨b1, ?_⟩
          intro st' h' hm
          rw [List.mem_append] at hm
          rcases hm with hm | hm
          · exact b2 st' h' hm
          · simp only [List.mem_cons, List.not_mem_nil, or_false] at hm
            rcases hm with hm | hm | hm
            · exact absurd hm (by simp)
            · obtain ⟨hst, hh⟩ := HAction.writeHead.inj hm
              rw [hh]
              exact b1
            · exact absurd hm (by simp)
        · intro hf h0
          exact hinv.hdrs_unmutated hf h0
      · have hs : hstep cfg s (HEv.fallback fid) = (s, []) := by
          simp only [hstep]
          rw [if_neg hg]
        simp only [hs, List.append_nil]
        exact hinv_mono cfg evs _ s acts hinv hmono
  | HEv.ferror fid =>
      by_cases hg : (s.primaryTracked == some fid && !s.errFired) = true
      · obtain ⟨htr, hne⟩ : s.primaryTracked = some fid ∧ s.errFired = false := by
          simpa using hg
        obtain ⟨hlf, herrW, hfinW⟩ := tracked_flags cfg evs s acts hinv fid htr
        have hs : hstep cfg s (HEv.ferror fid) =
            ({ s with errFired := true, respEnded := true, statusCode := 500 },
             [HAction.emitError, HAction.writeHead 500 s.responseHeaders,
              HAction.respEnd none]) := by
          simp only [hstep]
          rw [if_pos hg]
        have hA : countWH [HAction.emitError, HAction.writeHead 500 s.responseHeaders,
            HAction.respEnd none] = 1 := by simp [countWH, List.filter, isWriteHead]
        simp only [hs]
        refine ⟨?_, ?_, ?_, ?_, ?_, ?_, ?_, ?_, ?_, ?_, ?_, ?_, ?_, ?_, ?_, ?_, ?_, ?_⟩
        · intro h0; exact absurd h0 (by simp [hlf])
        · intro h0; simp [htr] at h0
        · rw [countWH_append, hA, hinv.count_wh]
          dsimp only
          rw [hne]
          simp
          omega
        · intro h0
          exact absurd (hinv.errfin_tracked (Or.inl h0.1)) (by rw [htr]; simp)
        · intro h0
          rcases h0 with h0 | h0
          · exact absurd (hinv.errfin_tracked (Or.inl h0)) (by rw [htr]; simp)
          · exact absurd (hinv.errfin_tracked (Or.inr h0)) (by rw [htr]; simp)
        · intro h0
          have := hinv.piped_wh h0
          rw [countWH_append]
          omega
        · intro _
          rw [countWH_append, hA]
          omega
        · refine headsBeforeChunks_append_nochunk _ _ hinv.chunks_after_head ?_
          intro a ha
          simp only [List.mem_cons, List.not_mem_nil, or_false] at ha
          rcases ha with rfl | rfl | rfl <;> rfl
        · dsimp only
          rw [chunkSum_append]
          have hz : chunkSum [HAction.emitError, HAction.writeHead 500 s.responseHeaders,
              HAction.respEnd none] = 0 := by simp [chunkSum]
          rw [hz, hinv.chunk_sum]
          omega
        · dsimp only
          rw [endPayloads_append]
          have hz : endPayloads [HAction.emitError, HAction.writeHead 500 s.responseHeaders,
              HAction.respEnd none] = [] := by simp [endPayloads]
          rw [hz, List.append_nil, hinv.end_payloads]
        · intro h0
          exact absurd (hinv.errfin_tracked (Or.inl h0)) (by rw [htr]; simp)
        · intro h0
          exact hinv.meter_no_errwh h0
        · intro h0
          rw [respEndBodyBytes_append]
          have hz : respEndBodyBytes [HAction.emitError,
              HAction.writeHead 500 s.responseHeaders, HAction.respEnd none] = 0 := by
            simp [respEndBodyBytes]
          rw [hz, hinv.no_errwh_nobody h0]
        · intro h0
          obtain ⟨fid', h1, st', hh', hm⟩ := hinv.resp_src h0
          exact ⟨fid', h1, st', hh', hmono _ hm⟩
        · intro h0
          obtain ⟨fid', h1, hm⟩ := hinv.fb_src h0
          exact ⟨fid', h1, hmono _ hm⟩
        · intro _
          exact ⟨fid, htr, List.mem_append_right _ (List.mem_singleton.mpr rfl)⟩
        · intro hf
          obtain ⟨b1, b2⟩ := hinv.base_hdrs hf
          refine ⟨b1, ?_⟩
          intro st' h' hm
          rw [List.mem_append] at hm
          rcases hm with hm | hm
          · exact b2 st' h' hm
          · simp only [List.mem_cons, List.not_mem_nil, or_false] at hm
            rcases hm with hm | hm | hm
            · exact absurd hm (by simp)
            · obtain ⟨hst, hh⟩ := HAction.writeHead.inj hm
              rw [hh]
              exact b1
            · exact absurd hm (by simp)
        · intro hf h0
          exact hinv.hdrs_unmutated hf h0
      · have hs : hstep cfg s (HEv.ferror fid) = (s, []) := by
          simp only [hstep]
          rw [if_neg hg]
        simp only [hs, List.append_nil]
        exact hinv_mono cfg evs _ s acts hinv hmono
  | HEv.finish =>
      by_cases hfin : s.finFired = true
      · have hs : hstep cfg s HEv.finish = (s, []) := by
          simp [hstep, hfin]
        simp only [hs, List.append_nil]
        exact hinv_mono cfg evs _ s acts hinv hmono
      · by_cases hsw : s.shouldWriteHead = true
        · obtain ⟨hTr, hRf, hFf, hEf, hEw, hFw, hHd, hPi, hRe, hSt, hMe, hSe, hFi⟩ :=
            hinv.latch hsw
          have hs : hstep cfg s HEv.finish =
              ({ s with finFired := true, shouldWriteHead := false, finWroteHead := true,
                        piped := true, statusCode := 200 },
               [HAction.emitResponse 200 s.responseHeaders,
                HAction.writeHead 200 s.responseHeaders, HAction.pipeThrough]) := by
            simp [hstep, hfin, hsw, hSt]
          have hA : countWH [HAction.emitResponse 200 s.responseHeaders,
              HAction.writeHead 200 s.responseHeaders, HAction.pipeThrough] = 1 := by
            simp [countWH, List.filter, isWriteHead]
          have hc0 : countWH acts = 0 := by
            rw [hinv.count_wh, hRf, hFf, hEf, hEw, hFw]
            rfl
          simp only [hs]
          refine ⟨?_, ?_, ?_, ?_, ?_, ?_, ?_, ?_, ?_, ?_, ?_, ?_, ?_, ?_, ?_, ?_, ?_, ?_⟩
          · intro h0; exact absurd h0 (by simp)
          · intro _
            exact ⟨hRf, hFf, hEf⟩
          · rw [countWH_append, hA, hc0]
            dsimp only
            rw [hRf, hFf, hEf, hEw]
            simp
          · intro h0
            exact absurd h0.1 (by simp [hEw])
          · intro _
            exact hTr
          · intro _
            rw [countWH_append, hA]
            omega
          · intro _
            rw [countWH_append, hA]
            omega
          · refine headsBeforeChunks_append_nochunk _ _ hinv.chunks_after_head ?_
            intro a ha
            simp only [List.mem_cons, List.not_mem_nil, or_false] at ha
            rcases ha with rfl | rfl | rfl <;> rfl
          · dsimp only
            rw [chunkSum_append]
            have hz : chunkSum [HAction.emitResponse 200 s.responseHeaders,
                HAction.writeHead 200 s.responseHeaders, HAction.pipeThrough] = 0 := by
              simp [chunkSum]
            rw [hz, hinv.chunk_sum]
            omega
          · dsimp only
            rw [endPayloads_append]
            have hz : endPayloads [HAction.emitResponse 200 s.responseHeaders,
                HAction.writeHead 200 s.responseHeaders, HAction.pipeThrough] = [] := by
              simp [endPayloads]
            rw [hz, List.append_nil, hinv.end_payloads]
          · intro h0
            exact absurd h0 (by simp [hEw])
          · intro h0
            exact absurd h0 (by simp [hMe])
          · intro _
            rw [respEndBodyBytes_append]
            have hz : respEndBodyBytes [HAction.emitResponse 200 s.responseHeaders,
                HAction.writeHead 200 s.responseHeaders, HAction.pipeThrough] = 0 := by
              simp [respEndBodyBytes]
            rw [hz, hinv.no_errwh_nobody hEw]
          · intro h0
            exact absurd h0 (by simp [hRf])
          · intro h0
            exact absurd h0 (by simp [hFf])
          · intro h0
            exact absurd h0 (by simp [hEf])
          · intro hf
            obtain ⟨b1, b2⟩ := hinv.base_hdrs hf
            refine ⟨b1, ?_⟩
            intro st' h' hm
            rw [List.mem_append] at hm
            rcases hm with hm | hm
            · exact b2 st' h' hm
            · simp only [List.mem_cons, List.not_mem_nil, or_false] at hm
              rcases hm with hm | hm | hm
              · exact absurd hm (by simp)
              · obtain ⟨hst, hh⟩ := HAction.writeHead.inj hm
                rw [hh]
                exact b1
              · exact absurd hm (by simp)
          · intro hf h0
            exact hinv.hdrs_unmutated hf h0
        · have hswf : s.shouldWriteHead = false := by
            cases h2 : s.shouldWriteHead with
            | false => rfl
            | true => exact absurd h2 hsw
          have hs : hstep cfg s HEv.finish = ({ s with finFired := true }, []) := by
            simp [hstep, hfin, hsw]
          simp only [hs, List.append_nil]
          refine ⟨?_, hinv.tracked_none, hinv.count_wh, hinv.not_both_errfin,
            hinv.errfin_tracked, hinv.piped_wh, hinv.respEnded_wh,
            hinv.chunks_after_head, hinv.chunk_sum, hinv.end_payloads, hinv.err_side,
            hinv.meter_no_errwh, hinv.no_errwh_nobody, ?_, ?_, ?_, hinv.base_hdrs,
            hinv.hdrs_unmutated⟩
          · intro h0
            exact absurd h0 (by simp [hswf])
          · intro h0
            obtain ⟨fid', h1, st', hh', hm⟩ := hinv.resp_src h0
            exact ⟨fid', h1, st', hh', hmono _ hm⟩
          · intro h0
            obtain ⟨fid', h1, hm⟩ := hinv.fb_src h0
            exact ⟨fid', h1, hmono _ hm⟩
          · intro h0
            obtain ⟨fid', h1, hm⟩ := hinv.ferr_src h0
            exact ⟨fid', h1, hmono _ hm⟩
  | HEv.serror err =>
      by_cases hserr : s.serrFired = true
      · have hs : hstep cfg s (HEv.serror err) = (s, []) := by
          simp [hstep, hserr]
        simp only [hs, List.append_nil]
        exact hinv_mono cfg evs _ s acts hinv hmono
      · by_cases hsw : s.shouldWriteHead = true
        · obtain ⟨hTr, hRf, hFf, hEf, hEw, hFw, hHd, hPi, hRe, hSt, hMe, hSe, hFi⟩ :=
            hinv.latch hsw
          have hs : hstep cfg s (HEv.serror err) =
              ({ s with serrFired := true, shouldWriteHead := false, errWroteHead := true,
                        respEnded := true,
                        statusCode := if err.code = some TEMPLATE_NOT_FOUND then 404 else 500 },
               [HAction.emitError,
                HAction.writeHead (if err.code = some TEMPLATE_NOT_FOUND then 404 else 500)
                  s.responseHeaders,
                HAction.respEnd err.presentable]) := by
            simp [hstep, hserr, handleError, hsw]
          have hA : countWH [HAction.emitError,
              HAction.writeHead (if err.code = some TEMPLATE_NOT_FOUND then 404 else 500)
                s.responseHeaders,
              HAction.respEnd err.presentable] = 1 := by
            simp [countWH, List.filter, isWriteHead]
          have hc0 : countWH acts = 0 := by
            rw [hinv.count_wh, hRf, hFf, hEf, hEw, hFw]
            rfl
          simp only [hs]
          refine ⟨?_, ?_, ?_, ?_, ?_, ?_, ?_, ?_, ?_, ?_, ?_, ?_, ?_, ?_, ?_, ?_, ?_, ?_⟩
          · intro h0; exact absurd h0 (by simp)
          · intro _
            exact ⟨hRf, hFf, hEf⟩
          · rw [countWH_append, hA, hc0]
            dsimp only
            rw [hRf, hFf, hEf, hFw]
            simp
          · intro h0
            exact absurd h0.2 (by simp [hFw])
          · intro _
            exact hTr
          · intro h0
            exact absurd h0 (by simp [hPi])
          · intro _
            rw [countWH_append, hA]
            omega
          · refine headsBeforeChunks_append_nochunk _ _ hinv.chunks_after_head ?_
            intro a ha
            simp only [List.mem_cons, List.not_mem_nil, or_false] at ha
            rcases ha with rfl | rfl | rfl <;> rfl
          · dsimp only
            rw [chunkSum_append]
            have hz : chunkSum [HAction.emitError,
                HAction.writeHead (if err.code = some TEMPLATE_NOT_FOUND then 404 else 500)
                  s.responseHeaders,
                HAction.respEnd err.presentable] = 0 := by
              simp [chunkSum]
            rw [hz, hinv.chunk_sum]
            omega
          · dsimp only
            rw [endPayloads_append]
            have hz : endPayloads [HAction.emitError,
                HAction.writeHead (if err.code = some TEMPLATE_NOT_FOUND then 404 else 500)
                  s.responseHeaders,
                HAction.respEnd err.presentable] = [] := by
              simp [endPayloads]
            rw [hz, List.append_nil, hinv.end_payloads]
          · intro _
            exact ⟨rfl, hPi, rfl⟩
          · intro h0
            exact absurd h0 (by simp [hMe])
          · intro h0
            simp at h0
          · intro h0
            exact absurd h0 (by simp [hRf])
          · intro h0
            exact absurd h0 (by simp [hFf])
          · intro h0
            exact absurd h0 (by simp [hEf])
          · intro hf
            obtain ⟨b1, b2⟩ := hinv.base_hdrs hf
            refine ⟨b1, ?_⟩
            intro st' h' hm
            rw [List.mem_append] at hm
            rcases hm with hm | hm
            · exact b2 st' h' hm
            · simp only [List.mem_cons, List.not_mem_nil, or_false] at hm
              rcases hm with hm | hm | hm
              · exact absurd hm (by simp)
              · obtain ⟨hst, hh⟩ := HAction.writeHead.inj hm
                rw [hh]
                exact b1
              · exact absurd hm (by simp)
          · intro hf h0
            exact hinv.hdrs_unmutated hf h0
        · have hswf : s.shouldWriteHead = false := by
            cases h2 : s.shouldWriteHead with
            | false => rfl
            | true => exact absurd h2 hsw
          have herrWf : s.errWroteHead = false := by
            cases h2 : s.errWroteHead with
            | false => rfl
            | true => exact absurd (hinv.err_side h2).1 hserr
          by_cases hmend : s.meterEnded = true
          · have hs : hstep cfg s (HEv.serror err) =
                ({ s with serrFired := true }, [HAction.emitError]) := by
              simp [hstep, hserr, handleError, hsw, hmend]
            have hA : countWH [HAction.emitError] = 0 := by
              simp [countWH, List.filter, isWriteHead]
            simp only [hs]
            refine ⟨?_, hinv.tracked_none, ?_, hinv.not_both_errfin, hinv.errfin_tracked,
              ?_, ?_, ?_, ?_, ?_, ?_, hinv.meter_no_errwh, ?_, ?_, ?_, ?_,
              ?_, hinv.hdrs_unmutated⟩
            · intro h0
              exact absurd h0 (by simp [hswf])
            · rw [countWH_append, hA, hinv.count_wh]
              dsimp only
              omega
            · intro h0
              have := hinv.piped_wh h0
              rw [countWH_append]
              omega
            · intro h0
              have := hinv.respEnded_wh h0
              rw [countWH_append]
              omega
            · refine headsBeforeChunks_append_nochunk _ _ hinv.chunks_after_head ?_
              intro a ha
              simp only [List.mem_cons, List.not_mem_nil, or_false] at ha
              rcases ha with rfl <;> rfl
            · dsimp only
              rw [chunkSum_append]
              have hz : chunkSum [HAction.emitError] = 0 := by simp [chunkSum]
              rw [hz, hinv.chunk_sum]
              omega
            · dsimp only
              rw [endPayloads_append]
              have hz : endPayloads [HAction.emitError] = [] := by simp [endPayloads]
              rw [hz, List.append_nil, hinv.end_payloads]
            · intro h0
              exact absurd h0 (by simp [herrWf])
            · intro h0
              rw [respEndBodyBytes_append]
              have hz : respEndBodyBytes [HAction.emitError] = 0 := by
                simp [respEndBodyBytes]
              rw [hz, hinv.no_errwh_nobody h0]
            · intro h0
              obtain ⟨fid', h1, st', hh', hm⟩ := hinv.resp_src h0
              exact ⟨fid', h1, st', hh', hmono _ hm⟩
            · intro h0
              obtain ⟨fid', h1, hm⟩ := hinv.fb_src h0
              exact ⟨fid', h1, hmono _ hm⟩
            · intro h0
              obtain ⟨fid', h1, hm⟩ := hinv.ferr_src h0
              exact ⟨fid', h1, hmono _ hm⟩
            · intro hf
              obtain ⟨b1, b2⟩ := hinv.base_hdrs hf
              refine ⟨b1, ?_⟩
              intro st' h' hm
              rw [List.mem_append] at hm
              rcases hm with hm | hm
              · exact b2 st' h' hm
              · simp only [List.mem_cons, List.not_mem_nil, or_false] at hm
                exact absurd hm (by simp)
          · have hmendf : s.meterEnded = false := by
              cases h2 : s.meterEnded with
              | false => rfl
              | true => exact absurd h2 hmend
            have hs : hstep cfg s (HEv.serror err) =
                ({ s with serrFired := true, meterEnded := true },
                 [HAction.emitError, HAction.emitEnd s.meterCount]) := by
              simp [hstep, hserr, handleError, hsw, hmend]
            have hA : countWH [HAction.emitError, HAction.emitEnd s.meterCount] = 0 := by
              simp [countWH, List.filter, isWriteHead]
            simp only [hs]
            refine ⟨?_, hinv.tracked_none, ?_, hinv.not_both_errfin, hinv.errfin_tracked,
              ?_, ?_, ?_, ?_, ?_, ?_, ?_, ?_, ?_, ?_, ?_, ?_, hinv.hdrs_unmutated⟩
            · intro h0
              exact absurd h0 (by simp [hswf])
            · rw [countWH_append, hA, hinv.count_wh]
              dsimp only
              omega
            · intro h0
              have := hinv.piped_wh h0
              rw [countWH_append]
              omega
            · intro h0
              have := hinv.respEnded_wh h0
              rw [countWH_append]
              omega
            · refine headsBeforeChunks_append_nochunk _ _ hinv.chunks_after_head ?_
              intro a ha
              simp only [List.mem_cons, List.not_mem_nil, or_false] at ha
              rcases ha with rfl | rfl <;> rfl
            · dsimp only
              rw [chunkSum_append]
              have hz : chunkSum [HAction.emitError, HAction.emitEnd s.meterCount] = 0 := by
                simp [chunkSum]
              rw [hz, hinv.chunk_sum]
              omega
            · dsimp only
              rw [endPayloads_append]
              have hz : endPayloads [HAction.emitError, HAction.emitEnd s.meterCount] =
                  [s.meterCount] := by simp [endPayloads]
              rw [hz, hinv.end_payloads, hmendf]
              simp
            · intro h0
              exact absurd h0 (by simp [herrWf])
            · intro _
              exact herrWf
            · intro _
              rw [respEndBodyBytes_append]
              have hz : respEndBodyBytes [HAction.emitError, HAction.emitEnd s.meterCount] =
                  0 := by simp [respEndBodyBytes]
              rw [hz, hinv.no_errwh_nobody herrWf]
            · intro h0
              obtain ⟨fid', h1, st', hh', hm⟩ := hinv.resp_src h0
              exact ⟨fid', h1, st', hh', hmono _ hm⟩
            · intro h0
              obtain ⟨fid', h1, hm⟩ := hinv.fb_src h0
              exact ⟨fid', h1, hmono _ hm⟩
            · intro h0
              obtain ⟨fid', h1, hm⟩ := hinv.ferr_src h0
              exact ⟨fid', h1, hmono _ hm⟩
            · intro hf
              obtain ⟨b1, b2⟩ := hinv.base_hdrs hf
              refine ⟨b1, ?_⟩
              intro st' h' hm
              rw [List.mem_append] at hm
              rcases hm with hm | hm
              · exact b2 st' h' hm
              · simp only [List.mem_cons, List.not_mem_nil, or_false] at hm
                rcases hm with hm | hm
                · exact absurd hm (by simp)
                · exact absurd hm (by simp)
  | HEv.chunk n =>
      by_cases hg : (s.piped && !s.meterEnded) = true
      · obtain ⟨hpi, hnm⟩ : s.piped = true ∧ s.meterEnded = false := by
          have := Bool.and_eq_true (s.piped) (!s.meterEnded)
          simpa using hg
        have hswf : s.shouldWriteHead = false := by
          cases h2 : s.shouldWriteHead with
          | false => rfl
          | true =>
              obtain ⟨_, _, _, _, _, _, _, hPi0, _, _, _, _, _⟩ := hinv.latch h2
              rw [hpi] at hPi0
              exact absurd hPi0 (by simp)
        have herrWf : s.errWroteHead = false := by
          cases h2 : s.errWroteHead with
          | false => rfl
          | true =>
              have := (hinv.err_side h2).2.1
              rw [hpi] at this
              exact absurd this (by simp)
        have hs : hstep cfg s (HEv.chunk n) =
            ({ s with meterCount := s.meterCount + n }, [HAction.chunk n]) := by
          simp only [hstep]
          rw [if_pos hg]
        have hA : countWH [HAction.chunk n] = 0 := by
          simp [countWH, List.filter, isWriteHead]
        simp only [hs]
        refine ⟨?_, hinv.tracked_none, ?_, hinv.not_both_errfin, hinv.errfin_tracked,
          ?_, ?_, ?_, ?_, ?_, ?_, ?_, ?_, ?_, ?_, ?_, ?_, hinv.hdrs_unmutated⟩
        · intro h0
          exact absurd h0 (by simp [hswf])
        · rw [countWH_append, hA, hinv.count_wh]
          dsimp only
          omega
        · intro h0
          have := hinv.piped_wh h0
          rw [countWH_append]
          omega
        · intro h0
          have := hinv.respEnded_wh h0
          rw [countWH_append]
          omega
        · exact headsBeforeChunks_append_chunk acts n hinv.chunks_after_head
            (hinv.piped_wh hpi)
        · dsimp only
          rw [chunkSum_append]
          have hz : chunkSum [HAction.chunk n] = n := by simp [chunkSum]
          rw [hz, hinv.chunk_sum]
        · dsimp only
          rw [endPayloads_append]
          have hz : endPayloads [HAction.chunk n] = [] := by simp [endPayloads]
          rw [hz, List.append_nil, hinv.end_payloads, hnm]
          simp [hnm]
        · intro h0
          exact absurd h0 (by simp [herrWf])
        · intro h0
          exact absurd h0 (by simp [hnm])
        · intro _
          rw [respEndBodyBytes_append]
          have hz : respEndBodyBytes [HAction.chunk n] = 0 := by simp [respEndBodyBytes]
          rw [hz, hinv.no_errwh_nobody herrWf]
        · intro h0
          obtain ⟨fid', h1, st', hh', hm⟩ := hinv.resp_src h0
          exact ⟨fid', h1, st', hh', hmono _ hm⟩
        · intro h0
          obtain ⟨fid', h1, hm⟩ := hinv.fb_src h0
          exact ⟨fid', h1, hmono _ hm⟩
        · intro h0
          obtain ⟨fid', h1, hm⟩ := hinv.ferr_src h0
          exact ⟨fid', h1, hmono _ hm⟩
        · intro hf
          obtain ⟨b1, b2⟩ := hinv.base_hdrs hf
          refine ⟨b1, ?_⟩
          intro st' h' hm
          rw [List.mem_append] at hm
          rcases hm with hm | hm
          · exact b2 st' h' hm
          · simp only [List.mem_cons, List.not_mem_nil, or_false] at hm
            exact absurd hm (by simp)
      · have hs : hstep cfg s (HEv.chunk n) = (s, []) := by
          simp only [hstep]
          rw [if_neg hg]
        simp only [hs, List.append_nil]
        exact hinv_mono cfg evs _ s acts hinv hmono
  | HEv.meterFin =>
      by_cases hg : (s.piped && !s.meterEnded) = true
      · obtain ⟨hpi, hnm⟩ : s.piped = true ∧ s.meterEnded = false := by
          simpa using hg
        have hswf : s.shouldWriteHead = false := by
          cases h2 : s.shouldWriteHead with
          | false => rfl
          | true =>
              obtain ⟨_, _, _, _, _, _, _, hPi0, _, _, _, _, _⟩ := hinv.latch h2
              rw [hpi] at hPi0
              exact absurd hPi0 (by simp)
        have herrWf : s.errWroteHead = false := by
          cases h2 : s.errWroteHead with
          | false => rfl
          | true =>
              have := (hinv.err_side h2).2.1
              rw [hpi] at this
              exact absurd this (by simp)
        have hs : hstep cfg s HEv.meterFin =
            ({ s with meterEnded := true }, [HAction.emitEnd s.meterCount]) := by
          simp only [hstep]
          rw [if_pos hg]
        have hA : countWH [HAction.emitEnd s.meterCount] = 0 := by
          simp [countWH, List.filter, isWriteHead]
        simp only [hs]
        refine ⟨?_, hinv.tracked_none, ?_, hinv.not_both_errfin, hinv.errfin_tracked,
          ?_, ?_, ?_, ?_, ?_, ?_, ?_, ?_, ?_, ?_, ?_, ?_, hinv.hdrs_unmutated⟩
        · intro h0
          exact absurd h0 (by simp [hswf])
        · rw [countWH_append, hA, hinv.count_wh]
          dsimp only
          omega
        · intro h0
          have := hinv.piped_wh h0
          rw [countWH_append]
          omega
        · intro h0
          have := hinv.respEnded_wh h0
          rw [countWH_append]
          omega
        · refine headsBeforeChunks_append_nochunk _ _ hinv.chunks_after_head ?_
          intro a ha
          simp only [List.mem_cons, List.not_mem_nil, or_false] at ha
          rcases ha with rfl <;> rfl
        · dsimp only
          rw [chunkSum_append]
          have hz : chunkSum [HAction.emitEnd s.meterCount] = 0 := by simp [chunkSum]
          rw [hz, hinv.chunk_sum]
          omega
        · dsimp only
          rw [endPayloads_append]
          have hz : endPayloads [HAction.emitEnd s.meterCount] = [s.meterCount] := by
            simp [endPayloads]
          rw [hz, hinv.end_payloads, hnm]
          simp
        · intro h0
          exact absurd h0 (by simp [herrWf])
        · intro _
          exact herrWf
        · intro _
          rw [respEndBodyBytes_append]
          have hz : respEndBodyBytes [HAction.emitEnd s.meterCount] = 0 := by
            simp [respEndBodyBytes]
          rw [hz, hinv.no_errwh_nobody herrWf]
        · intro h0
          obtain ⟨fid', h1, st', hh', hm⟩ := hinv.resp_src h0
          exact ⟨fid', h1, st', hh', hmono _ hm⟩
        · intro h0
          obtain ⟨fid', h1, hm⟩ := hinv.fb_src h0
          exact ⟨fid', h1, hmono _ hm⟩
        · intro h0
          obtain ⟨fid', h1, hm⟩ := hinv.ferr_src h0
          exact ⟨fid', h1, hmono _ hm⟩
        · intro hf
          obtain ⟨b1, b2⟩ := hinv.base_hdrs hf
          refine ⟨b1, ?_⟩
          intro st' h' hm
          rw [List.mem_append] at hm
          rcases hm with hm | hm
          · exact b2 st' h' hm
          · simp only [List.mem_cons, List.not_mem_nil, or_false] at hm
            exact absurd hm (by simp)
      · have hs : hstep cfg s HEv.meterFin = (s, []) := by
          simp only [hstep]
          rw [if_neg hg]
        simp only [hs, List.append_nil]
        exact hinv_mono cfg evs _ s acts hinv hmono

theorem runFrom_consH (cfg : Cfg) (s : HState) (acts : List HAction) (e : HEv)
    (tl : List HEv) :
    runFrom cfg (s, acts) (e :: tl) =
      runFrom cfg ((hstep cfg s e).1, acts ++ (hstep cfg s e).2) tl := rfl

theorem runFrom_appendH (cfg : Cfg) (p : HState × List HAction) (l m : List HEv) :
    runFrom cfg p (l ++ m) = runFrom cfg (runFrom cfg p l) m := by
  simp [runFrom, List.foldl_append]

theorem hinv_runFrom (cfg : Cfg) (evs : List HEv) :
    ∀ (evs0 : List HEv) (s : HState) (acts : List HAction),
    HInv cfg evs0 s acts →
    HInv cfg (evs0 ++ evs) (runFrom cfg (s, acts) evs).1 (runFrom cfg (s, acts) evs).2 := by
  induction evs with
  | nil =>
      intro evs0 s acts h
      exact hinv_mono cfg evs0 (evs0 ++ []) s acts h (fun x hx => List.mem_append_left _ hx)
  | cons e tl ih =>
      intro evs0 s acts h
      rw [runFrom_consH]
      have h1 := hinv_step cfg evs0 s acts h e
      have h2 := ih (evs0 ++ [e]) (hstep cfg s e).1 (acts ++ (hstep cfg s e).2) h1
      rw [List.append_assoc] at h2
      simpa using h2

theorem hinv_runMain (cfg : Cfg) (c : Headers) (evs : List HEv) :
    HInv cfg evs (runFrom cfg ({ initHState with ctx := c }, []) evs).1
      (runFrom cfg ({ initHState with ctx := c }, []) evs).2 := by
  have h := hinv_runFrom cfg evs [] { initHState with ctx := c } [] (hinv_init cfg c)
  simpa using h

theorem hone_resp_fb (evs : List HEv) (hone : atMostOneHeadEvent evs = true)
    (fid st : Nat) (h : UHeaders)
    (h1 : HEv.resp fid st h ∈ evs) (h2 : HEv.fallback fid ∈ evs) : False := by
  unfold atMostOneHeadEvent at hone
  rw [List.all_eq_true] at hone
  have h3 := hone _ h1
  have h4 : evs.any (isFallbackOf fid) = true := by
    rw [List.any_eq_true]
    exact ⟨_, h2, by simp [isFallbackOf]⟩
  simp [h4] at h3

theorem hone_resp_ferr (evs : List HEv) (hone : atMostOneHeadEvent evs = true)
    (fid st : Nat) (h : UHeaders)
    (h1 : HEv.resp fid st h ∈ evs) (h2 : HEv.ferror fid ∈ evs) : False := by
  unfold atMostOneHeadEvent at hone
  rw [List.all_eq_true] at hone
  have h3 := hone _ h1
  have h4 : evs.any (isFerrorOf fid) = true := by
    rw [List.any_eq_true]
    exact ⟨_, h2, by simp [isFerrorOf]⟩
  simp [h4] at h3

theorem hone_fb_ferr (evs : List HEv) (hone : atMostOneHeadEvent evs = true)
    (fid : Nat) (h1 : HEv.fallback fid ∈ evs) (h2 : HEv.ferror fid ∈ evs) : False := by
  unfold atMostOneHeadEvent at hone
  rw [List.all_eq_true] at hone
  have h3 := hone _ h1
  have h4 : evs.any (isFerrorOf fid) = true := by
    rw [List.any_eq_true]
    exact ⟨_, h2, by simp [isFerrorOf]⟩
  simp [h4] at h3

theorem headsBeforeChunks_prepend (pre l : List HAction) (hpre : countWH pre = 0)
    (hpc : ∀ a ∈ pre, isChunkA a = false) (hl : headsBeforeChunks l = true) :
    headsBeforeChunks (pre ++ l) = true := by
  unfold headsBeforeChunks at *
  rw [hbAux_append, hpre]
  simp [hbAux_true_of_nochunk pre hpc, hl]

/-- The writeHead count of a completed main run is exactly one, provided no
fragment fires more than one of its head-writing events. -/
theorem countWH_main_one (cfg : Cfg) (c : Headers) (evs : List HEv)
    (hone : atMostOneHeadEvent evs = true)
    (hcomp : CompletedState (runFrom cfg ({ initHState with ctx := c }, []) evs).1) :
    countWH (runFrom cfg ({ initHState with ctx := c }, []) evs).2 = 1 := by
  have hinv := hinv_runMain cfg c evs
  set s := (runFrom cfg ({ initHState with ctx := c }, []) evs).1 with hsdef
  set acts := (runFrom cfg ({ initHState with ctx := c }, []) evs).2 with hadef
  have hge : 1 ≤ countWH acts := by
    rcases hcomp with hre | ⟨hpi, _⟩
    · exact hinv.respEnded_wh hre
    · exact hinv.piped_wh hpi
  cases hr : s.respFired with
  | true =>
      obtain ⟨fid, htr, st', h', hm⟩ := hinv.resp_src hr
      have hfb : s.fbFired = false := by
        cases h2 : s.fbFired with
        | false => rfl
        | true =>
            obtain ⟨fid2, htr2, hm2⟩ := hinv.fb_src h2
            rw [htr] at htr2
            have hfid : fid2 = fid := by
              simpa using htr2.symm
            rw [hfid] at hm2
            exact absurd (hone_resp_fb evs hone fid st' h' hm hm2) (by simp)
      have herr : s.errFired = false := by
        cases h2 : s.errFired with
        | false => rfl
        | true =>
            obtain ⟨fid2, htr2, hm2⟩ := hinv.ferr_src h2
            rw [htr] at htr2
            have hfid : fid2 = fid := by
              simpa using htr2.symm
            rw [hfid] at hm2
            exact absurd (hone_resp_ferr evs hone fid st' h' hm hm2) (by simp)
      have hew : s.errWroteHead = false := by
        cases h2 : s.errWroteHead with
        | false => rfl
        | true =>
            have := hinv.errfin_tracked (Or.inl h2)
            rw [htr] at this
            exact absurd this (by simp)
      have hfw : s.finWroteHead = false := by
        cases h2 : s.finWroteHead with
        | false => rfl
        | true =>
            have := hinv.errfin_tracked (Or.inr h2)
            rw [htr] at this
            exact absurd this (by simp)
      rw [hinv.count_wh, hr, hfb, herr, hew, hfw]
      rfl
  | false =>
      cases hfb : s.fbFired with
      | true =>
          obtain ⟨fid, htr, hm⟩ := hinv.fb_src hfb
          have herr : s.errFired = false := by
            cases h2 : s.errFired with
            | false => rfl
            | true =>
                obtain ⟨fid2, htr2, hm2⟩ := hinv.ferr_src h2
                rw [htr] at htr2
                have hfid : fid2 = fid := by
                  simpa using htr2.symm
                rw [hfid] at hm2
                exact absurd (hone_fb_ferr evs hone fid hm hm2) (by simp)
          have hew : s.errWroteHead = false := by
            cases h2 : s.errWroteHead with
            | false => rfl
            | true =>
                have := hinv.errfin_tracked (Or.inl h2)
                rw [htr] at this
                exact absurd this (by simp)
          have hfw : s.finWroteHead = false := by
            cases h2 : s.finWroteHead with
            | false => rfl
            | true =>
                have := hinv.errfin_tracked (Or.inr h2)
                rw [htr] at this
                exact absurd this (by simp)
          rw [hinv.count_wh, hr, hfb, herr, hew, hfw]
          rfl
      | false =>
          cases herr : s.errFired with
          | true =>
              obtain ⟨fid, htr, hm⟩ := hinv.ferr_src herr
              have hew : s.errWroteHead = false := by
                cases h2 : s.errWroteHead with
                | false => rfl
                | true =>
                    have := hinv.errfin_tracked (Or.inl h2)
                    rw [htr] at this
                    exact absurd this (by simp)
              have hfw : s.finWroteHead = false := by
                cases h2 : s.finWroteHead with
                | false => rfl
                | true =>
                    have := hinv.errfin_tracked (Or.inr h2)
                    rw [htr] at this
                    exact absurd this (by simp)
              rw [hinv.count_wh, hr, hfb, herr, hew, hfw]
              rfl
          | false =>
              cases hew : s.errWroteHead with
              | true =>
                  have hfw : s.finWroteHead = false := by
                    cases h2 : s.finWroteHead with
                    | false => rfl
                    | true => exact absurd ⟨hew, h2⟩ hinv.not_both_errfin
                  rw [hinv.count_wh, hr, hfb, herr, hew, hfw]
                  rfl
              | false =>
                  cases hfw : s.finWroteHead with
                  | true =>
                      rw [hinv.count_wh, hr, hfb, herr, hew, hfw]
                      rfl
                  | false =>
                      have h0 : countWH acts = 0 := by
                        rw [hinv.count_wh, hr, hfb, herr, hew, hfw]
                        rfl
                      rw [h0] at hge
                      exact absurd hge (by simp)

/-! ## C1: head-write exclusivity -/

/-- Counterexample to claim C1 as stated: the handler registers all three
once-listeners (`response`, `fallback`, `error`) on the tracked primary
fragment, so in a completed request whose primary emits `response` and then a
terminal `error` — a trace the fragment contract allows — `writeHead` is
called twice (with the upstream status and then 500), not exactly once. -/
theorem writeHead_twice_after_response_then_error :
    countWH (processRequest {} (Except.ok []) (Except.ok ())
      [HEv.found true 0, HEv.resp 0 200 ⟨none, none⟩, HEv.ferror 0]).2 = 2 ∧
    whStatuses (processRequest {} (Except.ok []) (Except.ok ())
      [HEv.found true 0, HEv.resp 0 200 ⟨none, none⟩, HEv.ferror 0]).2 = [200, 500] ∧
    CompletedState (processRequest {} (Except.ok []) (Except.ok ())
      [HEv.found true 0, HEv.resp 0 200 ⟨none, none⟩, HEv.ferror 0]).1 := by
  refine ⟨by decide, by decide, ?_⟩
  exact Or.inl rfl

/-- Claim C1 (corrected): provided no fragment fires more than one of its
head-writing events (`response`, `fallback`, `error`) — without this proviso
the claim fails, see the counterexample — every completed request calls
`response.writeHead` exactly once, and every body byte piped into the
response through the Content-Length Meter comes after that call. -/
theorem writeHead_once_and_before_body (cfg : Cfg) (ctxRes : Except JsError Headers)
    (tmplRes : Except JsError Unit) (evs : List HEv)
    (hone : atMostOneHeadEvent evs = true)
    (hcomp : CompletedState (processRequest cfg ctxRes tmplRes evs).1) :
    countWH (processRequest cfg ctxRes tmplRes evs).2 = 1 ∧
    headsBeforeChunks (processRequest cfg ctxRes tmplRes evs).2 = true := by
  match tmplRes with
  | Except.error e =>
      match ctxRes with
      | Except.error ec =>
          constructor
          · simp [processRequest, handleError, initHState, countWH, List.filter,
              isWriteHead]
          · simp [processRequest, handleError, initHState, headsBeforeChunks, hbAux]
      | Except.ok c =>
          constructor
          · simp [processRequest, handleError, initHState, countWH, List.filter,
              isWriteHead]
          · simp [processRequest, handleError, initHState, headsBeforeChunks, hbAux]
  | Except.ok u =>
      match ctxRes with
      | Except.error ec =>
          have heq2 : (processRequest cfg (Except.error ec) (Except.ok u) evs).1 =
              (runFrom cfg ({ initHState with ctx := ([] : Headers) }, []) evs).1 := rfl
          have heq1 : (processRequest cfg (Except.error ec) (Except.ok u) evs).2 =
              [HAction.emitStart, HAction.emitCtxError] ++
                (runFrom cfg ({ initHState with ctx := ([] : Headers) }, []) evs).2 := rfl
          rw [heq2] at hcomp
          rw [heq1]
          constructor
          · rw [countWH_append, countWH_main_one cfg [] evs hone hcomp]
            simp [countWH, List.filter, isWriteHead]
          · refine headsBeforeChunks_prepend _ _
              (by simp [countWH, List.filter, isWriteHead]) ?_
              (hinv_runMain cfg [] evs).chunks_after_head
            intro a ha
            simp only [List.mem_cons, List.not_mem_nil, or_false] at ha
            rcases ha with rfl | rfl <;> rfl
      | Except.ok c =>
          have heq2 : (processRequest cfg (Except.ok c) (Except.ok u) evs).1 =
              (runFrom cfg ({ initHState with ctx := c }, []) evs).1 := rfl
          have heq1 : (processRequest cfg (Except.ok c) (Except.ok u) evs).2 =
              [HAction.emitStart] ++
                (runFrom cfg ({ initHState with ctx := c }, []) evs).2 := rfl
          rw [heq2] at hcomp
          rw [heq1]
          constructor
          · rw [countWH_append, countWH_main_one cfg c evs hone hcomp]
            simp [countWH, List.filter, isWriteHead]
          · refine headsBeforeChunks_prepend _ _
              (by simp [countWH, List.filter, isWriteHead]) ?_
              (hinv_runMain cfg c evs).chunks_after_head
            intro a ha
            simp only [List.mem_cons, List.not_mem_nil, or_false] at ha
            rcases ha with rfl <;> rfl

/-- Witness for the amended C1 on a concrete completed trace. -/
theorem writeHead_once_and_before_body_witness :
    countWH (processRequest {} (Except.ok []) (Except.ok ())
      [HEv.found true 0, HEv.resp 0 200 ⟨none, none⟩, HEv.chunk 5, HEv.meterFin]).2 = 1 ∧
    headsBeforeChunks (processRequest {} (Except.ok []) (Except.ok ())
      [HEv.found true 0, HEv.resp 0 200 ⟨none, none⟩, HEv.chunk 5, HEv.meterFin]).2 =
      true :=
  writeHead_once_and_before_body {} (Except.ok []) (Except.ok ())
    [HEv.found true 0, HEv.resp 0 200 ⟨none, none⟩, HEv.chunk 5, HEv.meterFin]
    (by decide) (by exact Or.inr ⟨rfl, rfl⟩)

/-! ## C2: the shouldWriteHead latch -/

/-- Counterexample to claim C2 as stated: the latch is cleared when a primary
fragment is *found* (`handlePrimaryFragment` runs `shouldWriteHead = false`
before registering the once-listeners), not at the first of the four
head-write events; and when two fragments declare primary, the first one found
(template order) claims the head even when the second one responds first: the
sole `writeHead` carries the first primary's status 202, not 201. -/
theorem latch_cleared_at_primary_found :
    (runMain {} [HEv.found true 0]).1.shouldWriteHead = false ∧
    ([HEv.found true 0].any isHeadWriteEvent) = false ∧
    whStatuses (runMain {} [HEv.found true 0, HEv.found true 1,
      HEv.resp 1 201 ⟨none, none⟩, HEv.resp 0 202 ⟨none, none⟩]).2 = [202] := by
  decide

theorem latch_iff_aux (cfg : Cfg) (evs : List HEv) :
    ∀ (evs0 : List HEv) (s : HState) (acts : List HAction), HInv cfg evs0 s acts →
    ((runFrom cfg (s, acts) evs).1.shouldWriteHead = false ↔
      (s.shouldWriteHead = false ∨ evs.any IsLatchClearing = true)) := by
  induction evs with
  | nil =>
      intro evs0 s acts _
      simp [runFrom]
  | cons e tl ih =>
      intro evs0 s acts hinv
      rw [runFrom_consH]
      rw [ih (evs0 ++ [e]) (hstep cfg s e).1 (acts ++ (hstep cfg s e).2)
        (hinv_step cfg evs0 s acts hinv e)]
      have key : ((hstep cfg s e).1.shouldWriteHead = false) ↔
          (s.shouldWriteHead = false ∨ IsLatchClearing e = true) := by
        match e with
        | HEv.found primary fid =>
            by_cases hp : primary = true
            · subst hp
              by_cases hl : s.shouldWriteHead = true
              · have hg : (true && s.shouldWriteHead) = true := by simp [hl]
                have hs : hstep cfg s (HEv.found true fid) =
                    ({ s with shouldWriteHead := false, primaryTracked := some fid },
                     []) := by
                  simp only [hstep]
                  rw [if_pos hg]
                simp [hs, IsLatchClearing]
              · have hswf : s.shouldWriteHead = false := by
                  cases h2 : s.shouldWriteHead with
                  | false => rfl
                  | true => exact absurd h2 hl
                have hg : ¬((true && s.shouldWriteHead) = true) := by simp [hswf]
                have hs : hstep cfg s (HEv.found true fid) = (s, []) := by
                  simp only [hstep]
                  rw [if_neg hg]
                simp [hs, IsLatchClearing, hswf]
            · have hpf : primary = false := by
                cases h2 : primary with
                | false => rfl
                | true => exact absurd h2 hp
              subst hpf
              have hg : ¬((false && s.shouldWriteHead) = true) := by simp
              have hs : hstep cfg s (HEv.found false fid) = (s, []) := by
                simp only [hstep]
                rw [if_neg hg]
              simp [hs, IsLatchClearing]
        | HEv.resp fid st h =>
            by_cases hg : (s.primaryTracked == some fid && !s.respFired) = true
            · have hs : hstep cfg s (HEv.resp fid st h) = primaryResponse cfg st h s := by
                simp only [hstep]
                rw [if_pos hg]
              have hf1 := (primaryResponse_fields cfg st h s).1
              rw [hs, hf1]
              simp [IsLatchClearing]
            · have hs : hstep cfg s (HEv.resp fid st h) = (s, []) := by
                simp only [hstep]
                rw [if_neg hg]
              simp [hs, IsLatchClearing]
        | HEv.fallback fid =>
            by_cases hg : (s.primaryTracked == some fid && !s.fbFired) = true
            · have hs : hstep cfg s (HEv.fallback fid) =
                  ({ s with fbFired := true, piped := true, statusCode := 500 },
                   [HAction.emitError, HAction.writeHead 500 s.responseHeaders,
                    HAction.pipeThrough]) := by
                simp only [hstep]
                rw [if_pos hg]
              simp [hs, IsLatchClearing]
            · have hs : hstep cfg s (HEv.fallback fid) = (s, []) := by
                simp only [hstep]
                rw [if_neg hg]
              simp [hs, IsLatchClearing]
        | HEv.ferror fid =>
            by_cases hg : (s.primaryTracked == some fid && !s.errFired) = true
            · have hs : hstep cfg s (HEv.ferror fid) =
                  ({ s with errFired := true, respEnded := true, statusCode := 500 },
                   [HAction.emitError, HAction.writeHead 500 s.responseHeaders,
                    HAction.respEnd none]) := by
                simp only [hstep]
                rw [if_pos hg]
              simp [hs, IsLatchClearing]
            · have hs : hstep cfg s (HEv.ferror fid) = (s, []) := by
                simp only [hstep]
                rw [if_neg hg]
              simp [hs, IsLatchClearing]
        | HEv.finish =>
            by_cases hfin : s.finFired = true
            · have hswf : s.shouldWriteHead = false := by
                cases h2 : s.shouldWriteHead with
                | false => rfl
                | true => exact absurd hfin (by simp [(hinv.latch h2).2.2.2.2.2.2.2.2.2.2.2.2])
              have hs : hstep cfg s HEv.finish = (s, []) := by
                simp [hstep, hfin]
              simp [hs, IsLatchClearing, hswf]
            · by_cases hsw : s.shouldWriteHead = true
              · obtain ⟨hTr, hRf, hFf, hEf, hEw, hFw, hHd, hPi, hRe, hSt, hMe, hSe, hFi⟩ :=
                  hinv.latch hsw
                have hs : hstep cfg s HEv.finish =
                    ({ s with finFired := true, shouldWriteHead := false,
                              finWroteHead := true, piped := true, statusCode := 200 },
                     [HAction.emitResponse 200 s.responseHeaders,
                      HAction.writeHead 200 s.responseHeaders,
                      HAction.pipeThrough]) := by
                  simp [hstep, hfin, hsw, hSt]
                simp [hs, IsLatchClearing]
              · have hswf : s.shouldWriteHead = false := by
                  cases h2 : s.shouldWriteHead with
                  | false => rfl
                  | true => exact absurd h2 hsw
                have hs : hstep cfg s HEv.finish = ({ s with finFired := true }, []) := by
                  simp [hstep, hfin, hsw]
                simp [hs, IsLatchClearing, hswf]
        | HEv.serror err =>
            by_cases hserr : s.serrFired = true
            · have hswf : s.shouldWriteHead = false := by
                cases h2 : s.shouldWriteHead with
                | false => rfl
                | true => exact absurd hserr (by simp [(hinv.latch h2).2.2.2.2.2.2.2.2.2.2.2.1])
              have hs : hstep cfg s (HEv.serror err) = (s, []) := by
                simp [hstep, hserr]
              simp [hs, IsLatchClearing, hswf]
            · by_cases hsw : s.shouldWriteHead = true
              · have hs1 : (hstep cfg s (HEv.serror err)).1.shouldWriteHead = false := by
                  simp [hstep, hserr, handleError, hsw]
                simp [hs1, IsLatchClearing]
              · have hswf : s.shouldWriteHead = false := by
                  cases h2 : s.shouldWriteHead with
                  | false => rfl
                  | true => exact absurd h2 hsw
                by_cases hmend : s.meterEnded = true
                · have hs : hstep cfg s (HEv.serror err) =
                      ({ s with serrFired := true }, [HAction.emitError]) := by
                    simp [hstep, hserr, handleError, hsw, hmend]
                  simp [hs, IsLatchClearing, hswf]
                · have hs : hstep cfg s (HEv.serror err) =
                      ({ s with serrFired := true, meterEnded := true },
                       [HAction.emitError, HAction.emitEnd s.meterCount]) := by
                    simp [hstep, hserr, handleError, hsw, hmend]
                  simp [hs, IsLatchClearing, hswf]
        | HEv.chunk n =>
            by_cases hg : (s.piped && !s.meterEnded) = true
            · have hs : hstep cfg s (HEv.chunk n) =
                  ({ s with meterCount := s.meterCount + n }, [HAction.chunk n]) := by
                simp only [hstep]
                rw [if_pos hg]
              simp [hs, IsLatchClearing]
            · have hs : hstep cfg s (HEv.chunk n) = (s, []) := by
                simp only [hstep]
                rw [if_neg hg]
              simp [hs, IsLatchClearing]
        | HEv.meterFin =>
            by_cases hg : (s.piped && !s.meterEnded) = true
            · have hs : hstep cfg s HEv.meterFin =
                  ({ s with meterEnded := true }, [HAction.emitEnd s.meterCount]) := by
                simp only [hstep]
                rw [if_pos hg]
              simp [hs, IsLatchClearing]
            · have hs : hstep cfg s HEv.meterFin = (s, []) := by
                simp only [hstep]
                rw [if_neg hg]
              simp [hs, IsLatchClearing]
      rw [List.any_cons]
      constructor
      · intro h0
        rcases h0 with h0 | h0
        · rcases key.mp h0 with h1 | h1
          · exact Or.inl h1
          · exact Or.inr (by simp [h1])
        · exact Or.inr (by simp [h0])
      · intro h0
        rcases h0 with h0 | h0
        · exact Or.inl (key.mpr (Or.inl h0))
        · rcases (Bool.or_eq_true _ _).mp h0 with h1 | h1
          · exact Or.inl (key.mpr (Or.inr h1))
          · exact Or.inr h1

/-- Claim C2 (corrected): `shouldWriteHead` starts true, and along any trace
it has been cleared exactly when one of the code's clearing events occurred: a
*primary fragment being found*, a stream error handled by `handleError`, or
the processor's `finish` — not the four head-write events the claim names.
Consequently, when several fragments declare primary, the first one *found*
(template order) claims the response head: with two primaries `a` then `b`
where `b` responds first, the single `writeHead` carries `a`'s status. -/
theorem latch_clearing_and_first_primary_wins (cfg : Cfg) :
    ((runMain cfg []).1.shouldWriteHead = true) ∧
    (∀ evs : List HEv,
      ((runMain cfg evs).1.shouldWriteHead = false ↔
        (evs.any IsLatchClearing) = true)) ∧
    (∀ (a b sa sb : Nat) (ha hb : UHeaders), a ≠ b →
      whStatuses (runMain cfg [HEv.found true a, HEv.found true b,
        HEv.resp b sb hb, HEv.resp a sa ha]).2 = [sa]) := by
  refine ⟨rfl, ?_, ?_⟩
  · intro evs
    have h := latch_iff_aux cfg evs [] initHState [] (hinv_init cfg [])
    rw [show (runMain cfg evs) = runFrom cfg (initHState, []) evs from rfl, h]
    simp [initHState]
  · intro a b sa sb ha hb hab
    have hne : ((some a : Option Nat) == some b) = false := by
      simp [hab]
    show whStatuses (runFrom cfg (initHState, []) [HEv.found true a, HEv.found true b,
      HEv.resp b sb hb, HEv.resp a sa ha]).2 = [sa]
    simp [runFrom, hstep, initHState, hab, primaryResponse, whStatuses]

/-- Witness for the amended C2: two primaries, the second responds first, the
head carries the first's status. -/
theorem latch_clearing_and_first_primary_wins_witness :
    whStatuses (runMain {} [HEv.found true 0, HEv.found true 1,
      HEv.resp 1 201 ⟨none, none⟩, HEv.resp 0 202 ⟨none, none⟩]).2 = [202] :=
  (latch_clearing_and_first_primary_wins {}).2.2 0 1 202 201 ⟨none, none⟩ ⟨none, none⟩
    (by decide)

/-! ## C3: handleError -/

/-- Counterexample to claim C3 as stated: after a primary fragment has been
*found* (but before any head write — the log holds no `writeHead`), a stream
error is an "error raised before the head is written", yet `handleError` takes
its else-branch: it writes no 404/500 head at all and only ends the meter
(firing the `end` event with count 0), because the dichotomy in the code is on
the `shouldWriteHead` latch, not on whether the head has been written. -/
theorem error_after_primary_found_writes_no_head :
    countWH (runMain {} [HEv.found true 0]).2 = 0 ∧
    countWH (runMain {} [HEv.found true 0, HEv.serror ⟨none, none⟩]).2 = 0 ∧
    endPayloads (runMain {} [HEv.found true 0, HEv.serror ⟨none, none⟩]).2 = [0] := by
  decide

/-- Claim C3 (corrected): the dichotomy is on the `shouldWriteHead` latch
rather than on "head written".  For every reachable handler state: while the
latch is still set, `handleError` emits `error`, writes 404 (code
`TEMPLATE_NOT_FOUND`) or 500 with the baseline headers, and ends the response
with the presentable string as body when present (empty body otherwise);
once the latch is cleared — which can happen before any head write, when a
primary has merely been found — it performs no `writeHead`, leaves the status
code unchanged, and only ends the Content-Length Meter (firing the `end`
event if the meter had not ended yet). -/
theorem handleError_latch_dichotomy (cfg : Cfg) (c : Headers) (evs : List HEv)
    (e : JsError) :
    ((runFrom cfg ({ initHState with ctx := c }, []) evs).1.shouldWriteHead = true →
      (handleError e (runFrom cfg ({ initHState with ctx := c }, []) evs).1).2 =
        [HAction.emitError,
         HAction.writeHead (if e.code = some TEMPLATE_NOT_FOUND then 404 else 500)
           responseHeadersInit,
         HAction.respEnd e.presentable] ∧
      (handleError e (runFrom cfg ({ initHState with ctx := c }, []) evs).1).1.respEnded =
        true) ∧
    ((runFrom cfg ({ initHState with ctx := c }, []) evs).1.shouldWriteHead = false →
      countWH (handleError e (runFrom cfg ({ initHState with ctx := c }, []) evs).1).2 =
        0 ∧
      (handleError e (runFrom cfg ({ initHState with ctx := c }, []) evs).1).1.statusCode =
        (runFrom cfg ({ initHState with ctx := c }, []) evs).1.statusCode ∧
      (handleError e (runFrom cfg ({ initHState with ctx := c }, []) evs).1).2 =
        HAction.emitError ::
          (if (runFrom cfg ({ initHState with ctx := c }, []) evs).1.meterEnded = true
           then []
           else [HAction.emitEnd
             (runFrom cfg ({ initHState with ctx := c }, []) evs).1.meterCount])) := by
  have hinv := hinv_runMain cfg c evs
  constructor
  · intro hsw
    obtain ⟨hTr, hRf, hFf, hEf, hEw, hFw, hHd, hPi, hRe, hSt, hMe, hSe, hFi⟩ :=
      hinv.latch hsw
    constructor
    · unfold handleError
      rw [if_pos hsw, hHd]
    · unfold handleError
      rw [if_pos hsw]
  · intro hswf
    have hneg : ¬((runFrom cfg ({ initHState with ctx := c }, []) evs).1.shouldWriteHead =
        true) := by simp [hswf]
    by_cases hme : (runFrom cfg ({ initHState with ctx := c }, []) evs).1.meterEnded = true
    · refine ⟨?_, ?_, ?_⟩
      · unfold handleError
        rw [if_neg hneg, if_pos hme]
        simp [countWH, List.filter, isWriteHead]
      · unfold handleError
        rw [if_neg hneg, if_pos hme]
      · unfold handleError
        rw [if_neg hneg, if_pos hme, if_pos hme]
    · have hmeneg : ¬((runFrom cfg ({ initHState with ctx := c }, []) evs).1.meterEnded =
          true) := hme
      refine ⟨?_, ?_, ?_⟩
      · unfold handleError
        rw [if_neg hneg, if_neg hmeneg]
        simp [countWH, List.filter, isWriteHead]
      · unfold handleError
        rw [if_neg hneg, if_neg hmeneg]
      · unfold handleError
        rw [if_neg hneg, if_neg hmeneg, if_neg hmeneg]

/-- Witness for the amended C3: a template-not-found error at the initial
state writes a 404 head with the baseline headers and the presentable body. -/
theorem handleError_latch_dichotomy_witness :
    (handleError ⟨some TEMPLATE_NOT_FOUND, some "missing"⟩
      (runFrom {} ({ initHState with ctx := [] }, []) []).1).2 =
      [HAction.emitError, HAction.writeHead 404 responseHeadersInit,
       HAction.respEnd (some "missing")] := by
  have h := (handleError_latch_dichotomy {} [] []
    ⟨some TEMPLATE_NOT_FOUND, some "missing"⟩).1 rfl
  simpa using h.1

/-! ## C4: the end event and the Content-Length Meter -/

/-- Counterexample to claim C4 as stated: a request rejected with
`TEMPLATE_NOT_FOUND` and a request whose primary fragment errors both
terminate the response (`response.end` is called), yet neither ever ends the
Content-Length Meter, so the handler's `end` event never fires — not exactly
once.  Moreover, in the first trace the presentable body bytes reach the
socket without being counted. -/
theorem no_end_event_on_errors_before_pipe :
    endPayloads (processRequest {} (Except.ok [])
      (Except.error ⟨some TEMPLATE_NOT_FOUND, some "missing"⟩) []).2 = [] ∧
    (processRequest {} (Except.ok [])
      (Except.error ⟨some TEMPLATE_NOT_FOUND, some "missing"⟩) []).1.respEnded = true ∧
    respEndBodyBytes (processRequest {} (Except.ok [])
      (Except.error ⟨some TEMPLATE_NOT_FOUND, some "missing"⟩) []).2 = 7 ∧
    endPayloads (processRequest {} (Except.ok []) (Except.ok ())
      [HEv.found true 0, HEv.ferror 0]).2 = [] ∧
    (processRequest {} (Except.ok []) (Except.ok ())
      [HEv.found true 0, HEv.ferror 0]).1.respEnded = true := by
  decide

/-- Claim C4 (corrected): the `end` event fires exactly when the
Content-Length Meter ends — which does not happen on the pre-head error path
or on the primary-error path — and then exactly once, with a byte count equal
to the number of body bytes that passed through the meter; when the meter has
ended, that count equals all body bytes written to the socket (no presentable
body was written in such a trace). -/
theorem end_event_iff_meter_closed (cfg : Cfg) (ctxRes : Except JsError Headers)
    (tmplRes : Except JsError Unit) (evs : List HEv) :
    endPayloads (processRequest cfg ctxRes tmplRes evs).2 =
      (if (processRequest cfg ctxRes tmplRes evs).1.meterEnded = true
       then [(processRequest cfg ctxRes tmplRes evs).1.meterCount] else []) ∧
    (processRequest cfg ctxRes tmplRes evs).1.meterCount =
      chunkSum (processRequest cfg ctxRes tmplRes evs).2 ∧
    ((processRequest cfg ctxRes tmplRes evs).1.meterEnded = true →
      bodyBytesToSocket (processRequest cfg ctxRes tmplRes evs).2 =
        (processRequest cfg ctxRes tmplRes evs).1.meterCount) := by
  match tmplRes with
  | Except.error e =>
      match ctxRes with
      | Except.error ec =>
          refine ⟨?_, ?_, ?_⟩ <;>
            simp [processRequest, handleError, initHState, endPayloads, chunkSum,
              bodyBytesToSocket, respEndBodyBytes]
      | Except.ok c =>
          refine ⟨?_, ?_, ?_⟩ <;>
            simp [processRequest, handleError, initHState, endPayloads, chunkSum,
              bodyBytesToSocket, respEndBodyBytes]
  | Except.ok u =>
      match ctxRes with
      | Except.error ec =>
          have hinv := hinv_runMain cfg [] evs
          have heq2 : (processRequest cfg (Except.error ec) (Except.ok u) evs).1 =
              (runFrom cfg ({ initHState with ctx := ([] : Headers) }, []) evs).1 := rfl
          have heq1 : (processRequest cfg (Except.error ec) (Except.ok u) evs).2 =
              [HAction.emitStart, HAction.emitCtxError] ++
                (runFrom cfg ({ initHState with ctx := ([] : Headers) }, []) evs).2 := rfl
          rw [heq1, heq2]
          refine ⟨?_, ?_, ?_⟩
          · rw [endPayloads_append]
            have hp : endPayloads [HAction.emitStart, HAction.emitCtxError] = [] := by
              simp [endPayloads]
            rw [hp, List.nil_append, hinv.end_payloads]
          · rw [chunkSum_append]
            have hp : chunkSum [HAction.emitStart, HAction.emitCtxError] = 0 := by
              simp [chunkSum]
            rw [hp, hinv.chunk_sum]
            omega
          · intro hme
            unfold bodyBytesToSocket
            rw [chunkSum_append, respEndBodyBytes_append]
            have hp1 : chunkSum [HAction.emitStart, HAction.emitCtxError] = 0 := by
              simp [chunkSum]
            have hp2 : respEndBodyBytes [HAction.emitStart, HAction.emitCtxError] = 0 := by
              simp [respEndBodyBytes]
            rw [hp1, hp2, hinv.no_errwh_nobody (hinv.meter_no_errwh hme),
              hinv.chunk_sum]
            omega
      | Except.ok c =>
          have hinv := hinv_runMain cfg c evs
          have heq2 : (processRequest cfg (Except.ok c) (Except.ok u) evs).1 =
              (runFrom cfg ({ initHState with ctx := c }, []) evs).1 := rfl
          have heq1 : (processRequest cfg (Except.ok c) (Except.ok u) evs).2 =
              [HAction.emitStart] ++
                (runFrom cfg ({ initHState with ctx := c }, []) evs).2 := rfl
          rw [heq1, heq2]
          refine ⟨?_, ?_, ?_⟩
          · rw [endPayloads_append]
            have hp : endPayloads [HAction.emitStart] = [] := by
              simp [endPayloads]
            rw [hp, List.nil_append, hinv.end_payloads]
          · rw [chunkSum_append]
            have hp : chunkSum [HAction.emitStart] = 0 := by
              simp [chunkSum]
            rw [hp, hinv.chunk_sum]
            omega
          · intro hme
            unfold bodyBytesToSocket
            rw [chunkSum_append, respEndBodyBytes_append]
            have hp1 : chunkSum [HAction.emitStart] = 0 := by
              simp [chunkSum]
            have hp2 : respEndBodyBytes [HAction.emitStart] = 0 := by
              simp [respEndBodyBytes]
            rw [hp1, hp2, hinv.no_errwh_nobody (hinv.meter_no_errwh hme),
              hinv.chunk_sum]
            omega

/-- Witness for the amended C4 on a trace whose meter ends after 7 body
bytes. -/
theorem end_event_iff_meter_closed_witness :
    bodyBytesToSocket (processRequest {} (Except.ok []) (Except.ok ())
      [HEv.found true 0, HEv.resp 0 200 ⟨none, none⟩, HEv.chunk 7, HEv.meterFin]).2 =
    (processRequest {} (Except.ok []) (Except.ok ())
      [HEv.found true 0, HEv.resp 0 200 ⟨none, none⟩, HEv.chunk 7, HEv.meterFin]).1.meterCount :=
  (end_event_iff_meter_closed {} (Except.ok []) (Except.ok ())
    [HEv.found true 0, HEv.resp 0 200 ⟨none, none⟩, HEv.chunk 7, HEv.meterFin]).2.2
    (by decide)

/-! ## C5: response envelope -/

theorem hget_primaryHeadersDefault_location (cfg : Cfg) (h : UHeaders) :
    hget (primaryHeadersDefault cfg h) "location" =
      (match h.location with
       | some l => if l != "" then some l else none
       | none => none) := by
  unfold primaryHeadersDefault
  have hbase : hget responseHeadersInit "location" = none := by decide
  cases hl : h.location with
  | none =>
      simp only [hl]
      by_cases hp : ((match h.link with
          | some refs => getAssetsToPreload refs cfg.host
          | none => "") != "") = true
      · rw [if_pos hp, hget_hset, if_neg (by decide), hbase]
      · rw [if_neg hp]
        exact hbase
  | some l =>
      simp only [hl]
      by_cases hll : (l != "") = true
      · rw [if_pos hll, if_pos hll]
        by_cases hp : ((match h.link with
            | some refs => getAssetsToPreload refs cfg.host
            | none => "") != "") = true
        · rw [if_pos hp, hget_hset, if_neg (by decide), hget_hset, if_pos rfl]
        · rw [if_neg hp, hget_hset, if_pos rfl]
      · rw [if_neg hll, if_neg hll]
        by_cases hp : ((match h.link with
            | some refs => getAssetsToPreload refs cfg.host
            | none => "") != "") = true
        · rw [if_pos hp, hget_hset, if_neg (by decide), hbase]
        · rw [if_neg hp]
          exact hbase

/-- Counterexample to claim C5 as stated: (1) with a configured
`filterResponseHeaders` returning a `Content-Type` (a projection of upstream
headers the code merges via `Object.assign`), the baseline header
`Content-Type: text/html` is *not* present on the written head; (2) an
upstream response that carries a `location` header whose value is the empty
string is dropped (`if (headers.location)` tests JS truthiness), so the
location header is not set although the upstream response carries one. -/
theorem baseline_overridden_and_empty_location_dropped :
    hget (runMain { filterResponseHeaders := some overrideFilter }
      [HEv.found true 0, HEv.resp 0 200 ⟨none, none⟩]).1.responseHeaders
      "Content-Type" = some "application/json" ∧
    countWH (runMain { filterResponseHeaders := some overrideFilter }
      [HEv.found true 0, HEv.resp 0 200 ⟨none, none⟩]).2 = 1 ∧
    hget (runMain {} [HEv.found true 0,
      HEv.resp 0 301 ⟨some "", none⟩]).1.responseHeaders "location" = none ∧
    countWH (runMain {} [HEv.found true 0,
      HEv.resp 0 301 ⟨some "", none⟩]).2 = 1 := by
  decide

/-- Claim C5 (corrected): under the default configuration (no
`filterResponseHeaders` function — a configured filter can override baseline
values): every `writeHead` in any trace carries the baseline headers; when the
tracked primary responds, the head is written with the upstream status and the
headers propagate the upstream `location` exactly when it is present and
non-empty; when the processor finishes with the latch still set, the head is
written with status 200 and the baseline headers. -/
theorem envelope_status_baseline_location (cfg : Cfg) (c : Headers) (evs : List HEv)
    (hf : cfg.filterResponseHeaders = none) :
    (∀ st h, HAction.writeHead st h ∈
        (runFrom cfg ({ initHState with ctx := c }, []) evs).2 → baselineIn h) ∧
    (∀ fid st h,
      (runFrom cfg ({ initHState with ctx := c }, []) evs).1.primaryTracked = some fid →
      (runFrom cfg ({ initHState with ctx := c }, []) evs).1.respFired = false →
      (hstep cfg (runFrom cfg ({ initHState with ctx := c }, []) evs).1
          (HEv.resp fid st h)).2 =
        [HAction.emitResponse st (primaryHeadersDefault cfg h),
         HAction.writeHead st (primaryHeadersDefault cfg h), HAction.pipeThrough] ∧
      hget (primaryHeadersDefault cfg h) "location" =
        (match h.location with
         | some l => if l != "" then some l else none
         | none => none)) ∧
    ((runFrom cfg ({ initHState with ctx := c }, []) evs).1.shouldWriteHead = true →
      (runFrom cfg ({ initHState with ctx := c }, []) evs).1.finFired = false →
      (hstep cfg (runFrom cfg ({ initHState with ctx := c }, []) evs).1 HEv.finish).2 =
        [HAction.emitResponse 200 responseHeadersInit,
         HAction.writeHead 200 responseHeadersInit, HAction.pipeThrough]) := by
  have hinv := hinv_runMain cfg c evs
  refine ⟨(hinv.base_hdrs hf).2, ?_, ?_⟩
  · intro fid st h htr hnr
    have hg : ((runFrom cfg ({ initHState with ctx := c }, []) evs).1.primaryTracked ==
        some fid &&
        !(runFrom cfg ({ initHState with ctx := c }, []) evs).1.respFired) = true := by
      simp [htr, hnr]
    have hs : hstep cfg (runFrom cfg ({ initHState with ctx := c }, []) evs).1
        (HEv.resp fid st h) =
        primaryResponse cfg st h (runFrom cfg ({ initHState with ctx := c }, []) evs).1 := by
      simp only [hstep]
      rw [if_pos hg]
    have hdef := primaryResponse_default_headers cfg st h
      (runFrom cfg ({ initHState with ctx := c }, []) evs).1 hf
      (hinv.hdrs_unmutated hf hnr)
    have hf14 := (primaryResponse_fields cfg st h
      (runFrom cfg ({ initHState with ctx := c }, []) evs).1).2.2.2.2.2.2.2.2.2.2.2.2.2
    rw [hs, hf14, hdef]
    exact ⟨rfl, hget_primaryHeadersDefault_location cfg h⟩
  · intro hsw hnf
    obtain ⟨hTr, hRf, hFf, hEf, hEw, hFw, hHd, hPi, hRe, hSt, hMe, hSe, hFi⟩ :=
      hinv.latch hsw
    have hs : hstep cfg (runFrom cfg ({ initHState with ctx := c }, []) evs).1
        HEv.finish =
        ({ (runFrom cfg ({ initHState with ctx := c }, []) evs).1 with
            finFired := true, shouldWriteHead := false, finWroteHead := true,
            piped := true, statusCode := 200 },
         [HAction.emitResponse 200
            (runFrom cfg ({ initHState with ctx := c }, []) evs).1.responseHeaders,
          HAction.writeHead 200
            (runFrom cfg ({ initHState with ctx := c }, []) evs).1.responseHeaders,
          HAction.pipeThrough]) := by
      simp [hstep, hnf, hsw, hSt]
    rw [hs, hHd]

/-- Witness for the amended C5: a primary responding 301 with
`location: /x` writes that status and propagates the location. -/
theorem envelope_status_baseline_location_witness :
    (hstep {} (runFrom {} ({ initHState with ctx := [] }, [])
        [HEv.found true 0]).1 (HEv.resp 0 301 ⟨some "/x", none⟩)).2 =
      [HAction.emitResponse 301 (primaryHeadersDefault {} ⟨some "/x", none⟩),
       HAction.writeHead 301 (primaryHeadersDefault {} ⟨some "/x", none⟩),
       HAction.pipeThrough] ∧
    hget (primaryHeadersDefault {} ⟨some "/x", none⟩) "location" = some "/x" := by
  have h := (envelope_status_baseline_location {} [] [HEv.found true 0] rfl).2.1
    0 301 ⟨some "/x", none⟩ (by decide) (by decide)
  exact ⟨h.1, by simpa using h.2⟩

/-! ## C8: context failure non-fatal, template failure fatal -/

/-- Claim C8 (confirmed): a `fetchContext` failure only prepends a
`context:error` emission and the request proceeds with the empty context
object — the final handler state (hence the response) is identical to a run
with a successfully fetched empty context; a `fetchTemplate` failure routes to
`handleError`, which ends the response after a single head write, and the
processing of stream events never begins. -/
theorem context_nonfatal_template_fatal (cfg : Cfg) (e eT : JsError)
    (tmplRes : Except JsError Unit) (evs : List HEv) :
    ((processRequest cfg (Except.error e) tmplRes evs).1 =
      (processRequest cfg (Except.ok []) tmplRes evs).1) ∧
    ((processRequest cfg (Except.error e) tmplRes evs).2 =
      HAction.emitStart :: HAction.emitCtxError ::
        ((processRequest cfg (Except.ok []) tmplRes evs).2).tail) ∧
    ((processRequest cfg (Except.ok []) (Except.error eT) evs).1.respEnded = true) ∧
    (countWH (processRequest cfg (Except.ok []) (Except.error eT) evs).2 = 1) := by
  refine ⟨?_, ?_, ?_, ?_⟩
  · cases tmplRes with
    | error x => rfl
    | ok u => rfl
  · cases tmplRes with
    | error x => rfl
    | ok u => rfl
  · simp [processRequest, handleError, initHState]
  · simp [processRequest, handleError, initHState, countWH, List.filter, isWriteHead]
